import Mathlib

/-!
# Verification of the Sortify dynamic email classification engine

A shallow embedding in Lean 4 of the core classification logic of the
Sortify repository:

* `model_service/dynamic_classifier.py` — `DynamicCategoryManager`
  (category CRUD), `DynamicEmailClassifier` (prediction, caching,
  strategy-based comprehensive analysis `_apply_comprehensive_analysis`
  and its four rule-group analyzers `_analyze_header`, `_analyze_body`,
  `_analyze_metadata`, `_analyze_tags`, plus `predict_batch`).
* `model_service/ensemble_classifier.py` — `ModelFusion.fuse_predictions`
  (Mode B dual-scorer fusion).

Modelling conventions:

* Python floats are modelled as `ℚ` (all constants in the source are
  exact decimals, so rational arithmetic is faithful).
* Python dicts holding configuration are modelled as structures whose
  fields have type `PyField α`: `absent` models a missing key (or a
  present-but-falsy value such as `{}`, `[]` or `None`, which the source
  treats identically via `dict.get(k, default)` plus truthiness checks);
  `ok v` models a present, truthy, well-typed value; `bad` models a
  present, truthy, ill-typed value, which raises `TypeError` at its
  first use in the source.
* Exceptions are modelled with `Except Unit`; each `try/except` block of
  the source becomes a `match` on the `Except` result.
* Python's regex `re.search` (used only for `senderPatterns`) is kept
  abstract as a parameter `re : String → String → Bool`
  (pattern → text → matched); all theorems hold for every such matcher.
* Python dicts preserve insertion order; score maps are association
  lists `List (String × ℚ)`.
-/

/-- `needle in hay` for Python strings: `needle` occurs as a contiguous
substring of `hay` (the empty string occurs in everything). -/
def pyIn (needle hay : String) : Bool :=
  (List.range (hay.data.length + 1)).any
    (fun i => needle.data.isPrefixOf (hay.data.drop i))

/-- Lower-casing, modelling Python `str.lower` on ASCII text
(character-list implementation so that proofs can evaluate it). -/
def lowerStr (s : String) : String := ⟨s.data.map Char.toLower⟩

/-- A value read from a Python configuration dict: the key may be
missing/falsy (`absent`), present with a truthy well-typed value (`ok`),
or present with a truthy ill-typed value (`bad`) that raises `TypeError`
when the source first operates on it. -/
inductive PyField (α : Type) where
  | absent : PyField α
  | ok (val : α) : PyField α
  | bad : PyField α
deriving DecidableEq

/-- `d.get(key, dflt)` followed by use of the value: an ill-typed value
raises (`throw`), a missing key yields the default. -/
def PyField.getD {α : Type} (f : PyField α) (dflt : α) : Except Unit α :=
  match f with
  | .absent => .ok dflt
  | .ok v => .ok v
  | .bad => .error ()

/-- Number of elements of `l` satisfying `p` (the source increments a
score once per matching configured pattern). -/
def countMatch (p : String → Bool) (l : List String) : Nat :=
  (l.filter p).length

/-- The repeated scoring pattern of the rule-group analyzers: a truthy
(non-empty) list of configured patterns adds `weight` per matching
pattern to the score and `weight × len(list)` to `max_score`; a
missing/empty list contributes nothing. -/
def scorePiece (p : String → Bool) (l : List String) (weight : ℚ) : ℚ × ℚ :=
  if l.isEmpty then (0, 0)
  else ((countMatch p l : ℚ) * weight, (l.length : ℚ) * weight)

/-- `headerAnalysis` rule group configuration. -/
structure HeaderAnalysis where
  senderDomains : PyField (List String)
  senderPatterns : PyField (List String)
  subjectPatterns : PyField (List String)

/-- `bodyAnalysis` rule group configuration. -/
structure BodyAnalysis where
  keywords : PyField (List String)
  phrases : PyField (List String)
  tfidfScores : PyField (List (String × ℚ))

/-- `metadataAnalysis.lengthPatterns` sub-dict: `minLength` defaults to
`0`, a missing `maxLength` means `float('inf')` (no upper bound). -/
structure LengthPatterns where
  minLength : PyField ℕ
  maxLength : PyField ℕ

/-- `metadataAnalysis.timePatterns` sub-dict (only its `keywords` key is
read by the scorer). -/
structure TimePatterns where
  keywords : PyField (List String)

/-- `metadataAnalysis.attachmentPatterns` sub-dict. -/
structure AttachmentPatterns where
  keywords : PyField (List String)

/-- `metadataAnalysis` rule group configuration. -/
structure MetadataAnalysis where
  lengthPatterns : PyField LengthPatterns
  timePatterns : PyField TimePatterns
  attachmentPatterns : PyField AttachmentPatterns

/-- `tagsAnalysis.entityPatterns` sub-dict. -/
structure EntityPatterns where
  emails : PyField (List String)
  urls : PyField (List String)
  keywords : PyField (List String)

/-- `tagsAnalysis.confidenceThresholds` sub-dict. -/
structure ConfidenceThresholds where
  tagMatch : PyField ℚ

/-- `tagsAnalysis` rule group configuration. -/
structure TagsAnalysis where
  commonTags : PyField (List String)
  labelPatterns : PyField (List String)
  entityPatterns : PyField EntityPatterns
  confidenceThresholds : PyField ConfidenceThresholds

/-- A category's `classification_strategy`: four optional rule groups
plus the fusion gate `confidenceThreshold` (default 0.7). -/
structure Strategy where
  headerAnalysis : PyField HeaderAnalysis
  bodyAnalysis : PyField BodyAnalysis
  metadataAnalysis : PyField MetadataAnalysis
  tagsAnalysis : PyField TagsAnalysis
  confidenceThreshold : PyField ℚ

/-- Body of `DynamicEmailClassifier._analyze_header` inside its `try`:
+0.1 per sender domain found in the lowered subject+body (plain or
`@`-prefixed), +0.15 per sender regex pattern that matches, +0.2 per
subject substring pattern found in the lowered subject. Each sub-list
contributes to `max_score` only when truthy (non-empty). -/
def analyzeHeaderCore (re : String → String → Bool) (subject body : String)
    (h : HeaderAnalysis) : Except Unit (ℚ × ℚ) := do
  let fullText := lowerStr (subject ++ " " ++ body)
  let sd ← h.senderDomains.getD []
  let p1 := scorePiece (fun d => pyIn (lowerStr d) fullText ||
    pyIn ("@" ++ lowerStr d) fullText) sd (1/10)
  let sp ← h.senderPatterns.getD []
  let p2 := scorePiece (fun pat => re (lowerStr pat) fullText) sp (15/100)
  let up ← h.subjectPatterns.getD []
  let p3 := scorePiece (fun pat => pyIn (lowerStr pat) (lowerStr subject)) up (2/10)
  return (p1.1 + p2.1 + p3.1, p1.2 + p2.2 + p3.2)

/-- `_analyze_header` including its `except` handler, which returns
`(0.0, 1.0)`. -/
def analyzeHeader (re : String → String → Bool) (subject body : String)
    (h : HeaderAnalysis) : ℚ × ℚ :=
  match analyzeHeaderCore re subject body h with
  | .ok r => r
  | .error _ => (0, 1)

/-- Body of `_analyze_body` inside its `try`: +0.1 per keyword substring
found, +0.15 per phrase substring found; a truthy `tfidfScores` dict
adds 1.0 to `max_score` and `min(Σ min(weight,1) over matched terms, 1)`
to the score when that sum is positive. -/
def analyzeBodyCore (subject body : String) (b : BodyAnalysis) :
    Except Unit (ℚ × ℚ) := do
  let fullText := lowerStr (subject ++ " " ++ body)
  let kw ← b.keywords.getD []
  let p1 := scorePiece (fun k => pyIn (lowerStr k) fullText) kw (1/10)
  let ph ← b.phrases.getD []
  let p2 := scorePiece (fun k => pyIn (lowerStr k) fullText) ph (15/100)
  let tf ← b.tfidfScores.getD []
  let p3 : ℚ × ℚ :=
    if tf.isEmpty then (0, 0)
    else
      let contribution :=
        ((tf.filter (fun t => pyIn (lowerStr t.1) fullText)).map
          (fun t => min t.2 1)).sum
      ((if contribution > 0 then min contribution 1 else 0), 1)
  return (p1.1 + p2.1 + p3.1, p1.2 + p2.2 + p3.2)

/-- `_analyze_body` including its `except` handler (`(0.0, 1.0)`). -/
def analyzeBody (subject body : String) (b : BodyAnalysis) : ℚ × ℚ :=
  match analyzeBodyCore subject body b with
  | .ok r => r
  | .error _ => (0, 1)

/-- The `lengthPatterns` contribution of `_analyze_metadata`: +0.3 when
`minLength ≤ len(subject+" "+body) ≤ maxLength` (missing bounds default
to 0 / infinity; Python's chained comparison short-circuits, so a bad
`maxLength` only raises when the lower bound already holds). -/
def lengthPiece (textLength : ℕ) (lpf : PyField LengthPatterns) : Except Unit ℚ :=
  match lpf with
  | .absent => pure 0
  | .bad => throw ()
  | .ok lp => do
      let minLength ← lp.minLength.getD 0
      if textLength < minLength then pure 0
      else
        match lp.maxLength with
        | .absent => pure (3/10)
        | .bad => throw ()
        | .ok maxLength => pure (if textLength ≤ maxLength then 3/10 else 0)

/-- The `timePatterns` contribution of `_analyze_metadata`: +0.1 per
matched keyword, with no `max_score` counterpart. -/
def timePiece (fullText : String) (tpf : PyField TimePatterns) : Except Unit ℚ :=
  match tpf with
  | .absent => pure 0
  | .bad => throw ()
  | .ok tp => do
      let kws ← tp.keywords.getD []
      pure ((countMatch (fun k => pyIn (lowerStr k) (lowerStr fullText)) kws : ℚ)
        * (1/10))

/-- The `attachmentPatterns` contribution of `_analyze_metadata`: +0.1
per matched keyword, with no `max_score` counterpart. -/
def attachPiece (fullText : String) (apf : PyField AttachmentPatterns) :
    Except Unit ℚ :=
  match apf with
  | .absent => pure 0
  | .bad => throw ()
  | .ok ap => do
      let kws ← ap.keywords.getD []
      pure ((countMatch (fun k => pyIn (lowerStr k) (lowerStr fullText)) kws : ℚ)
        * (1/10))

/-- Body of `_analyze_metadata` inside its `try`: `max_score` is fixed
at 1.0 and the three sub-dict contributions are summed into the score. -/
def analyzeMetadataCore (subject body : String) (m : MetadataAnalysis) :
    Except Unit (ℚ × ℚ) := do
  let fullText := subject ++ " " ++ body
  let s1 ← lengthPiece fullText.data.length m.lengthPatterns
  let s2 ← timePiece fullText m.timePatterns
  let s3 ← attachPiece fullText m.attachmentPatterns
  return (s1 + s2 + s3, 1)

/-- `_analyze_metadata` including its `except` handler (`(0.0, 1.0)`). -/
def analyzeMetadata (subject body : String) (m : MetadataAnalysis) : ℚ × ℚ :=
  match analyzeMetadataCore subject body m with
  | .ok r => r
  | .error _ => (0, 1)

/-- The `entityPatterns` contribution of `_analyze_tags`: +0.2 per
configured entity email found, +0.15 per URL, +0.1 per keyword, with the
matching weights always added to `max_score`. -/
def entityPiece (fullText : String) (epf : PyField EntityPatterns) :
    Except Unit (ℚ × ℚ) :=
  match epf with
  | .absent => pure (0, 0)
  | .bad => throw ()
  | .ok ep => do
      let ems ← ep.emails.getD []
      let urls ← ep.urls.getD []
      let kws ← ep.keywords.getD []
      pure ((countMatch (fun k => pyIn (lowerStr k) fullText) ems : ℚ) * (2/10) +
            (countMatch (fun k => pyIn (lowerStr k) fullText) urls : ℚ) * (15/100) +
            (countMatch (fun k => pyIn (lowerStr k) fullText) kws : ℚ) * (1/10),
            (ems.length : ℚ) * (2/10) + (urls.length : ℚ) * (15/100) +
            (kws.length : ℚ) * (1/10))

/-- The `confidenceThresholds` boost of `_analyze_tags`: when the dict
is truthy and `max_score > 0`, a ratio within 80% of `tagMatch` (default
0.85) multiplies the score by 1.2, capped at `max_score` (Python's `and`
short-circuits, so a bad dict with `max_score == 0` does not raise). -/
def tagsBoost (cff : PyField ConfidenceThresholds) (score maxScore : ℚ) :
    Except Unit ℚ :=
  match cff with
  | .absent => pure score
  | .bad => if maxScore > 0 then throw () else pure score
  | .ok c =>
      if maxScore > 0 then do
        let tagThreshold ← c.tagMatch.getD (85/100)
        pure (if score / maxScore ≥ tagThreshold * (8/10)
              then min maxScore (score * (12/10)) else score)
      else pure score

/-- Body of `_analyze_tags` inside its `try`: +0.1 per common tag found,
+0.15 per label pattern found, +0.2/0.15/0.1 per configured entity
email/URL/keyword found; when `confidenceThresholds` is truthy and
`max_score > 0`, a ratio within 80% of `tagMatch` (default 0.85) boosts
the score by ×1.2, capped at `max_score`. -/
def analyzeTagsCore (subject body : String) (t : TagsAnalysis) :
    Except Unit (ℚ × ℚ) := do
  let fullText := lowerStr (subject ++ " " ++ body)
  let ct ← t.commonTags.getD []
  let p1 := scorePiece (fun k => pyIn (lowerStr k) fullText) ct (1/10)
  let lp ← t.labelPatterns.getD []
  let p2 := scorePiece (fun k => pyIn (lowerStr k) fullText) lp (15/100)
  let p3 ← entityPiece fullText t.entityPatterns
  let score := p1.1 + p2.1 + p3.1
  let maxScore := p1.2 + p2.2 + p3.2
  let finalScore ← tagsBoost t.confidenceThresholds score maxScore
  return (finalScore, maxScore)

/-- `_analyze_tags` including its `except` handler (`(0.0, 1.0)`). -/
def analyzeTags (subject body : String) (t : TagsAnalysis) : ℚ × ℚ :=
  match analyzeTagsCore subject body t with
  | .ok r => r
  | .error _ => (0, 1)

/-- A category record as stored in `DynamicCategoryManager.categories`
(the `created_at`/`updated_at` timestamps and embeddings are irrelevant
to classification and omitted). -/
structure CategoryData where
  id : ℕ
  description : String
  keywords : List String
  color : String
  classification_strategy : PyField Strategy

/-- The category registry: a Python dict `name → category`, modelled as
an insertion-ordered association list. -/
structure ManagerState where
  categories : List (String × CategoryData)

/-- `scores.get(name, dflt)` on an association-list score map. -/
def lookupD (l : List (String × ℚ)) (k : String) (dflt : ℚ) : ℚ :=
  match l.find? (fun p => p.1 == k) with
  | some p => p.2
  | none => dflt

/-- The running best decision of `_apply_comprehensive_analysis`:
`(best_category, best_confidence, best_category_id)`. -/
structure Decision where
  category : String
  confidence : ℚ
  categoryId : ℕ
deriving DecidableEq

/-- The four rule-group calls of `_apply_comprehensive_analysis` for one
category: a group's `(score, max_score)` is added only when the group's
value is truthy; a truthy ill-typed group raises inside the analyzer's
own `try` and so contributes `(0.0, 1.0)`. -/
def groupResult {α : Type} (analyze : α → ℚ × ℚ) (f : PyField α) : ℚ × ℚ :=
  match f with
  | .absent => (0, 0)
  | .bad => (0, 1)
  | .ok g => analyze g

/-- Sum of the four rule-group `(score, max_score)` pairs for one
category in `_apply_comprehensive_analysis`. -/
def strategyGroupScores (re : String → String → Bool) (subject body : String)
    (st : Strategy) : ℚ × ℚ :=
  let h := groupResult (analyzeHeader re subject body) st.headerAnalysis
  let b := groupResult (analyzeBody subject body) st.bodyAnalysis
  let m := groupResult (analyzeMetadata subject body) st.metadataAnalysis
  let t := groupResult (analyzeTags subject body) st.tagsAnalysis
  (h.1 + b.1 + m.1 + t.1, h.2 + b.2 + m.2 + t.2)

/-- One iteration of the category loop in
`_apply_comprehensive_analysis`: the category named "Other" is skipped,
a missing/falsy strategy is skipped, a truthy ill-typed strategy raises
out of the whole analysis (`throw`); otherwise, when `max_score > 0` and
`strategy_confidence ≥ 0.8 × confidenceThreshold`, the combined score
`0.3 × P_ml + 0.7 × strategy_confidence` replaces the running best
whenever it strictly exceeds it, capped at 0.95. -/
def comprehensiveStep (re : String → String → Bool) (subject body : String)
    (scores : List (String × ℚ)) (best : Decision)
    (cat : String × CategoryData) : Except Unit Decision := do
  if cat.1 = "Other" then return best
  match cat.2.classification_strategy with
  | .absent => return best
  | .bad => throw ()
  | .ok st => do
      let (analysisScore, maxPossibleScore) := strategyGroupScores re subject body st
      if maxPossibleScore > 0 then
        let strategyConfidence := analysisScore / maxPossibleScore
        let threshold ← st.confidenceThreshold.getD (7/10)
        if strategyConfidence ≥ threshold * (8/10) then
          let mlBaseScore := lookupD scores cat.1 0
          let combinedConfidence := mlBaseScore * (3/10) + strategyConfidence * (7/10)
          if combinedConfidence > best.confidence then
            return ⟨cat.1, min (95/100) combinedConfidence, cat.2.id⟩
          else return best
        else return best
      else return best

/-- The category loop of `_apply_comprehensive_analysis` inside its
`try`, folded over the registry in iteration order. -/
def comprehensiveCore (re : String → String → Bool) (subject body : String)
    (scores : List (String × ℚ)) (cats : List (String × CategoryData))
    (baseline : Decision) : Except Unit Decision :=
  cats.foldlM (comprehensiveStep re subject body scores) baseline

/-- `_apply_comprehensive_analysis` including its `except` handler,
which returns the unmodified ML baseline. -/
def applyComprehensiveAnalysis (re : String → String → Bool)
    (subject body : String) (scores : List (String × ℚ))
    (cats : List (String × CategoryData)) (baseline : Decision) : Decision :=
  match comprehensiveCore re subject body scores cats baseline with
  | .ok r => r
  | .error _ => baseline

/-- The hard-coded list of protected default categories in
`DynamicCategoryManager.remove_category`. -/
def defaultCategoryNames : List String :=
  ["Academic", "Promotions", "Placement", "Spam", "Other"]

/-- The registry produced by `_initialize_default_categories`: only the
fallback category "Other" with id 0 and no classification strategy. -/
def initialManagerState : ManagerState :=
  ⟨[("Other", ⟨0, "Miscellaneous content", ["other", "misc", "general"],
      "#6B7280", .absent⟩)]⟩

/-- The default classification strategy generated by
`DynamicCategoryManager.add_category` when none is supplied: subject
patterns and body keywords from the category's keywords, empty sender
lists and tfidf map, truthy metadata sub-dicts whose scored keys are all
missing, and threshold 0.7. -/
def generatedDefaultStrategy (keywords : List String) : Strategy where
  headerAnalysis := .ok ⟨.absent, .absent,
    (if keywords.isEmpty then .absent else .ok keywords)⟩
  bodyAnalysis := .ok ⟨(if keywords.isEmpty then .absent else .ok keywords),
    .absent, .absent⟩
  metadataAnalysis := .ok ⟨.ok ⟨.absent, .absent⟩, .ok ⟨.absent⟩, .ok ⟨.absent⟩⟩
  tagsAnalysis := .absent
  confidenceThreshold := .ok (7/10)

/-- `DynamicCategoryManager.add_category`: fails on a duplicate name;
otherwise allocates `max(existing ids) + 1` (0 on an empty registry),
stores the supplied strategy or the generated default, and appends the
new entry. -/
def ManagerState.add_category (st : ManagerState) (name description : String)
    (keywords : List String) (color : String)
    (strategy : Option Strategy) : Bool × ManagerState :=
  if st.categories.any (fun p => p.1 == name) then (false, st)
  else
    let newId : ℕ :=
      if st.categories.isEmpty then 0
      else (st.categories.map (fun p => p.2.id)).foldl max 0 + 1
    let strat : Strategy :=
      match strategy with
      | some s => s
      | none => generatedDefaultStrategy keywords
    (true, ⟨st.categories ++ [(name, ⟨newId, description, keywords, color, .ok strat⟩)]⟩)

/-- `DynamicCategoryManager.remove_category`: fails for an unknown name
and for any name in the protected default list; otherwise deletes the
entry. -/
def ManagerState.remove_category (st : ManagerState) (name : String) :
    Bool × ManagerState :=
  if st.categories.any (fun p => p.1 == name) then
    if defaultCategoryNames.any (fun d => d == name) then (false, st)
    else (true, ⟨st.categories.filter (fun p => p.1 != name)⟩)
  else (false, st)

/-- `DynamicCategoryManager.update_category`: fails for an unknown name;
otherwise replaces existing fields of the entry (modelled as applying an
arbitrary field-updating function, which covers every `**kwargs`
combination) and refreshes `updated_at`. The entry is never deleted. -/
def ManagerState.update_category (st : ManagerState) (name : String)
    (f : CategoryData → CategoryData) : Bool × ManagerState :=
  if st.categories.any (fun p => p.1 == name) then
    (true, ⟨st.categories.map (fun p => if p.1 == name then (p.1, f p.2) else p)⟩)
  else (false, st)

/-- The classifier-level mutable state relevant to caching: the category
registry and the prediction cache (entries modelled by their keys). -/
structure ClassifierState where
  mgr : ManagerState
  cache : List ℕ

/-- `DynamicEmailClassifier.add_category`: delegates to the manager;
only on success does it rebuild the classification head and clear the
prediction cache. -/
def ClassifierState.add_category (st : ClassifierState)
    (name description : String) (keywords : List String) (color : String)
    (strategy : Option Strategy) : Bool × ClassifierState :=
  if (st.mgr.add_category name description keywords color strategy).1 then
    (true, ⟨(st.mgr.add_category name description keywords color strategy).2, []⟩)
  else
    (false, ⟨(st.mgr.add_category name description keywords color strategy).2,
      st.cache⟩)

/-- `DynamicEmailClassifier.remove_category`: delegates to the manager;
only on success does it clear the prediction cache. -/
def ClassifierState.remove_category (st : ClassifierState) (name : String) :
    Bool × ClassifierState :=
  if (st.mgr.remove_category name).1 then
    (true, ⟨(st.mgr.remove_category name).2, []⟩)
  else (false, ⟨(st.mgr.remove_category name).2, st.cache⟩)

/-- The update path exposed by the service (`PUT /categories/{name}` in
`enhanced_app.py`): it calls `category_manager.update_category` directly
and never touches the classifier's prediction cache. -/
def ClassifierState.update_category (st : ClassifierState) (name : String)
    (f : CategoryData → CategoryData) : Bool × ClassifierState :=
  ((st.mgr.update_category name f).1, ⟨(st.mgr.update_category name f).2, st.cache⟩)

/-- `DynamicEmailClassifier.load_model_from_path`: when the path is
missing (or loading raises) it returns `False` without touching any
state; on success it rebuilds the label map and clears the prediction
cache. `loadSucceeds` abstracts the filesystem/model outcome. -/
def ClassifierState.load_model_from_path (st : ClassifierState)
    (loadSucceeds : Bool) : Bool × ClassifierState :=
  if loadSucceeds then (true, ⟨st.mgr, []⟩) else (false, st)

/-- Python `round(x, 4)` as applied to the final confidence (half-way
cases do not arise in any scenario considered here). -/
def round4 (q : ℚ) : ℚ := (⌊q * 10000 + 1/2⌋ : ℚ) / 10000

/-- The DistilBERT-side input to `ModelFusion.fuse_predictions` (the
dict produced by `DynamicEmailClassifier.predict_single`). -/
structure DistilResult where
  label : String
  confidence : ℚ
  scores : List (String × ℚ)

/-- The feature-classifier input to `fuse_predictions`:
`(label, confidence, scores)`. -/
structure FeatureResult where
  label : String
  confidence : ℚ
  scores : List (String × ℚ)

/-- The dict returned by `fuse_predictions` (feature-contribution
metadata omitted). -/
structure FusedResult where
  label : String
  confidence : ℚ
  scores : List (String × ℚ)
  ensembleDistil : ℚ
  ensembleFeature : ℚ
  ensembleCombined : ℚ

/-- `set(distilbert_scores) | set(feature_scores)`: the union of both
score maps' key sets, in first-appearance order (Python set iteration
order is arbitrary; only the underlying set matters to any theorem). -/
def allLabels (d f : List (String × ℚ)) : List String :=
  (d.map Prod.fst ++ f.map Prod.fst).dedup

/-- The weighted per-label combination built by `fuse_predictions`
(absent entries read as 0.0). -/
def combinedScores (dw fw : ℚ) (d f : List (String × ℚ)) : List (String × ℚ) :=
  (allLabels d f).map (fun l => (l, lookupD d l 0 * dw + lookupD f l 0 * fw))

/-- Python `max(items, key=...)` over a non-empty association list:
the first entry with the maximal value. -/
def maxEntry (dflt : String × ℚ) (l : List (String × ℚ)) : String × ℚ :=
  l.foldl (fun acc p => if p.2 > acc.2 then p else acc) dflt

/-- The confidence reweighting of `fuse_predictions`: one confident and
one unconfident scorer boosts the confident side, capped at 0.95. -/
def fuseAdjusted (dConf fConf bestConf : ℚ) : ℚ :=
  if dConf > 8/10 ∧ fConf < 6/10 then
    min (95/100) (dConf * (8/10) + bestConf * (2/10))
  else if fConf > 8/10 ∧ dConf < 6/10 then
    min (95/100) (fConf * (8/10) + bestConf * (2/10))
  else bestConf

/-- The `except` handler of `fuse_predictions`: fall back to the
DistilBERT result (confidence default 0.5 via `dict.get`). -/
def fuseFallbackResult (d : DistilResult) : FusedResult :=
  { label := d.label, confidence := d.confidence, scores := d.scores,
    ensembleDistil := d.confidence, ensembleFeature := 0,
    ensembleCombined := d.confidence }

/-- `ModelFusion.fuse_predictions` with already-normalized weights
`dw + fw = 1`: weighted score combination, argmax, confidence
reweighting, and the `< 0.3` low-confidence fallback to the single
scorer with the higher raw confidence (ties to DistilBERT). An empty
combined map makes Python's `max` raise, landing in the `except`
handler. -/
def fusePredictions (dw fw : ℚ) (d : DistilResult) (f : FeatureResult) :
    FusedResult :=
  let combined := combinedScores dw fw d.scores f.scores
  match combined with
  | [] => fuseFallbackResult d
  | c :: rest =>
      let best := maxEntry c rest
      let adjusted := fuseAdjusted d.confidence f.confidence best.2
      let final : String × ℚ :=
        if adjusted < 3/10 then
          let fallbackConfidence := max d.confidence f.confidence * (7/10)
          if d.confidence ≥ f.confidence then (d.label, fallbackConfidence)
          else (f.label, fallbackConfidence)
        else (best.1, adjusted)
      { label := final.1, confidence := round4 final.2, scores := combined,
        ensembleDistil := d.confidence, ensembleFeature := f.confidence,
        ensembleCombined := final.2 }

/-- A batch input email (`{'subject': ..., 'body': ...}`). -/
structure EmailInput where
  subject : String
  body : String

/-- A prediction result dict (`error` is `none` on the normal path). -/
structure PredictionOutput where
  label : String
  confidence : ℚ
  scores : List (String × ℚ)
  categoryId : ℕ
  error : Option String
deriving DecidableEq

/-- Python `str.strip`: drop leading and trailing whitespace. -/
def pyStrip (s : String) : String :=
  ⟨((s.data.dropWhile Char.isWhitespace).reverse.dropWhile
      Char.isWhitespace).reverse⟩

/-- `preprocess_text`: `"{subject} [SEP] {body}"` stripped, with the
empty-text placeholder. -/
def preprocessText (subject body : String) : String :=
  let text := pyStrip (subject ++ " [SEP] " ++ body)
  if text = "" then "Empty email" else text

/-- `torch.argmax` over a probability row: the first index attaining
the maximum (0 for an empty row, which cannot occur for a real model). -/
def argmaxIdx (row : List ℚ) : ℕ :=
  match row with
  | [] => 0
  | x :: _ =>
    (row.enum.foldl (fun acc p => if p.2 > acc.2 then p else acc) (0, x)).1

/-- `get_category_by_id`: first category name whose id matches. -/
def getCategoryById (cats : List (String × CategoryData)) (i : ℕ) :
    Option String :=
  (cats.find? (fun p => p.2.id == i)).map Prod.fst

/-- The per-item result construction of `predict_batch`: argmax row
probability, name lookup by id with "Other" fallback, and a scores dict
pairing the k-th category name with the k-th probability only for
`k < len(row)` (`names.zip row`). -/
def batchItemResult (cats : List (String × CategoryData)) (row : List ℚ) :
    PredictionOutput :=
  let predictedId := argmaxIdx row
  let confidence := row.getD predictedId 0
  let categoryName := (getCategoryById cats predictedId).getD "Other"
  let names := cats.map Prod.fst
  { label := categoryName, confidence := round4 confidence,
    scores := names.zip row, categoryId := predictedId, error := none }

/-- The failure result of the `except` handler of `predict_batch`. -/
def batchFailureResult (msg : String) : PredictionOutput :=
  { label := "Other", confidence := 0, scores := [], categoryId := 0,
    error := some msg }

/-- Python `range(0, stop, step)` for `step > 0`: the chunk start
indices of the batch loop. -/
def pyRange (stop step : ℕ) : List ℕ :=
  (List.range ((stop + step - 1) / step)).map (fun i => i * step)

/-- The chunk loop of `predict_batch` inside its `try`: the scorer is
invoked once per chunk of `batchSize` emails (`model` maps the chunk's
preprocessed texts to probability rows; raising = `Except.error`), then
each chunk email's row becomes a per-item result (indexing a missing row
raises `IndexError`). All chunk results are concatenated in input
order. -/
def predictBatchCore (model : List String → Except String (List (List ℚ)))
    (cats : List (String × CategoryData)) (batchSize : ℕ)
    (emails : List EmailInput) : Except String (List PredictionOutput) :=
  (pyRange emails.length batchSize).foldlM (fun acc i => do
    let chunk := (emails.drop i).take batchSize
    let texts := chunk.map (fun e => preprocessText e.subject e.body)
    let rows ← model texts
    if rows.length < chunk.length then throw "IndexError"
    else return acc ++ (rows.take chunk.length).map (batchItemResult cats)) []

/-- `DynamicEmailClassifier.predict_batch`: empty input short-circuits;
a single `try` wraps the whole chunk loop, and its `except` handler
replaces the result for **every** input email with the failure result. -/
def predictBatch (model : List String → Except String (List (List ℚ)))
    (cats : List (String × CategoryData)) (batchSize : ℕ)
    (emails : List EmailInput) : List PredictionOutput :=
  if emails.isEmpty then []
  else
    match predictBatchCore model cats batchSize emails with
    | .ok results => results
    | .error msg => emails.map (fun _ => batchFailureResult msg)

/-- Whether the iteration of `_apply_comprehensive_analysis` for `cat`
raises (escaping to the outer `except` handler): a truthy ill-typed
`classification_strategy`, or — once `max_score > 0` — a truthy
ill-typed `confidenceThreshold`. Raising depends only on the category
itself and the email, never on the running best. -/
def stepThrows (re : String → String → Bool) (subject body : String)
    (cat : String × CategoryData) : Bool :=
  if cat.1 = "Other" then false
  else
    match cat.2.classification_strategy with
    | .absent => false
    | .bad => true
    | .ok st =>
        match st.confidenceThreshold with
        | .bad => decide ((strategyGroupScores re subject body st).2 > 0)
        | _ => false

/-- The combined override value `0.3 × P_ml + 0.7 × strategy_confidence`
a non-throwing category contributes when it passes the
`strategy_confidence ≥ 0.8 × threshold` gate; `none` when the category
is skipped or gated out. -/
def candidateValue (re : String → String → Bool) (subject body : String)
    (scores : List (String × ℚ)) (cat : String × CategoryData) : Option ℚ :=
  if cat.1 = "Other" then none
  else
    match cat.2.classification_strategy with
    | .absent => none
    | .bad => none
    | .ok st =>
        let (analysisScore, maxPossibleScore) := strategyGroupScores re subject body st
        if maxPossibleScore > 0 then
          let strategyConfidence := analysisScore / maxPossibleScore
          let threshold : ℚ :=
            match st.confidenceThreshold with
            | .ok v => v
            | _ => 7/10
          if strategyConfidence ≥ threshold * (8/10) then
            some (lookupD scores cat.1 0 * (3/10) + strategyConfidence * (7/10))
          else none
        else none

/-- The override values contributed by a registry, in iteration order. -/
def candidateValues (re : String → String → Bool) (subject body : String)
    (scores : List (String × ℚ)) (cats : List (String × CategoryData)) : List ℚ :=
  cats.filterMap (candidateValue re subject body scores)

/-- `comprehensiveStep` on a non-throwing category, as a pure function
of the running best (on a throwing category it treats the unreadable
threshold as the default; `comprehensiveStep_eq` below shows it agrees
with the monadic step exactly when the step does not throw). -/
def comprehensiveStepPure (re : String → String → Bool) (subject body : String)
    (scores : List (String × ℚ)) (best : Decision)
    (cat : String × CategoryData) : Decision :=
  if cat.1 = "Other" then best
  else
    match cat.2.classification_strategy with
    | .absent => best
    | .bad => best
    | .ok st =>
        let (analysisScore, maxPossibleScore) := strategyGroupScores re subject body st
        if maxPossibleScore > 0 then
          let strategyConfidence := analysisScore / maxPossibleScore
          let threshold : ℚ :=
            match st.confidenceThreshold with
            | .ok v => v
            | _ => 7/10
          if strategyConfidence ≥ threshold * (8/10) then
            let combinedConfidence :=
              lookupD scores cat.1 0 * (3/10) + strategyConfidence * (7/10)
            if combinedConfidence > best.confidence then
              ⟨cat.1, min (95/100) combinedConfidence, cat.2.id⟩
            else best
          else best
        else best

/-- The confidence evolution of the override loop, abstracted to the
stream of candidate values. -/
def confStep (acc v : ℚ) : ℚ :=
  if v > acc then min (95/100) v else acc

/-- A registry mutation through `DynamicCategoryManager`'s guarded
operations (`update` carries an arbitrary field-updating function,
covering every `**kwargs` combination). -/
inductive RegOp where
  | add (name description : String) (keywords : List String) (color : String)
        (strategy : Option Strategy)
  | remove (name : String)
  | update (name : String) (f : CategoryData → CategoryData)

/-- Apply one registry operation, keeping only the resulting state. -/
def ManagerState.applyOp (st : ManagerState) : RegOp → ManagerState
  | .add n d k c s => (st.add_category n d k c s).2
  | .remove n => (st.remove_category n).2
  | .update n f => (st.update_category n f).2

/-- Apply a sequence of registry operations in order. -/
def ManagerState.applyOps (st : ManagerState) (ops : List RegOp) : ManagerState :=
  ops.foldl ManagerState.applyOp st

/-- The `Invoices` strategy of the spec's strategy-override scenario:
`bodyAnalysis.keywords = ["invoice", "payment"]`, threshold 0.7. -/
def invoicesStrategy : Strategy where
  headerAnalysis := .absent
  bodyAnalysis := .ok ⟨.ok ["invoice", "payment"], .absent, .absent⟩
  metadataAnalysis := .absent
  tagsAnalysis := .absent
  confidenceThreshold := .ok (7/10)

/-- The two-category registry of the strategy-override scenario. -/
def scenarioCats : List (String × CategoryData) :=
  [("Other", ⟨0, "Miscellaneous content", [], "#6B7280", .absent⟩),
   ("Invoices", ⟨1, "Invoices", ["invoice", "payment"], "#6B7280",
     .ok invoicesStrategy⟩)]

/-- A regex matcher that never matches (no scenario configures
`senderPatterns`, so the choice is irrelevant there). -/
def noRegex : String → String → Bool := fun _ _ => false

/-- A metadata-only strategy whose eleven matching time-pattern keywords
push the metadata group's score to 1.1 against its fixed max of 1.0. -/
def metadataHeavyStrategy : Strategy where
  headerAnalysis := .absent
  bodyAnalysis := .absent
  metadataAnalysis := .ok ⟨.absent, .ok ⟨.ok (List.replicate 11 "a")⟩, .absent⟩
  tagsAnalysis := .absent
  confidenceThreshold := .ok (7/10)

/-- Two categories ("X" and "Y") sharing one strategy whose keyword "a"
fully matches, giving both the identical combined override value — a
tie that makes the final label depend on iteration order. -/
def tieStrategy : Strategy where
  headerAnalysis := .absent
  bodyAnalysis := .ok ⟨.ok ["a"], .absent, .absent⟩
  metadataAnalysis := .absent
  tagsAnalysis := .absent
  confidenceThreshold := .ok 0

def catX : String × CategoryData := ("X", ⟨1, "", ["a"], "", .ok tieStrategy⟩)

def catY : String × CategoryData := ("Y", ⟨2, "", ["a"], "", .ok tieStrategy⟩)

/-- A scorer that succeeds on full chunks of 32 texts and fails on any
other chunk size — so a 33-email batch fails only on its second chunk. -/
def flakyModel (texts : List String) : Except String (List (List ℚ)) :=
  if texts.length = 32 then .ok (List.replicate 32 [1]) else .error "boom"

/-! ## Theorems -/

lemma other_mem_applyOp (st : ManagerState) (op : RegOp)
    (h : "Other" ∈ st.categories.map Prod.fst) :
    "Other" ∈ (st.applyOp op).categories.map Prod.fst := by
  cases op with
  | add n d k c s =>
      simp only [ManagerState.applyOp, ManagerState.add_category]
      split
      · exact h
      · simpa using Or.inl h
  | remove n =>
      simp only [ManagerState.applyOp, ManagerState.remove_category]
      split
      · split
        · exact h
        · rename_i hdef
          obtain ⟨p, hp, hfst⟩ := List.mem_map.mp h
          refine List.mem_map.mpr ⟨p, List.mem_filter.mpr ⟨hp, ?_⟩, hfst⟩
          have hne : n ≠ "Other" := by
            intro e
            subst e
            exact hdef (by decide)
          have : p.1 ≠ n := by
            rw [hfst]
            exact fun e => hne e.symm
          simpa [bne] using this
      · exact h
  | update n f =>
      simp only [ManagerState.applyOp, ManagerState.update_category]
      split
      · rw [List.map_map]
        have : ∀ p : String × CategoryData,
            (Prod.fst ∘ fun p => if p.1 == n then (p.1, f p.2) else p) p = p.1 := by
          intro p
          by_cases hc : p.1 = n <;> simp [hc]
        rw [List.map_congr_left (fun p _ => this p)]
        exact h
      · exact h

lemma other_mem_applyOps (st : ManagerState) (ops : List RegOp)
    (h : "Other" ∈ st.categories.map Prod.fst) :
    "Other" ∈ (st.applyOps ops).categories.map Prod.fst := by
  induction ops generalizing st with
  | nil => exact h
  | cons op rest ih => exact ih _ (other_mem_applyOp st op h)

/-- C8: starting from the default registry (only "Other", id 0), every
sequence of `add`/`remove`/`update` operations leaves the fallback
category "Other" registered, and `remove` on any protected default
category name returns failure and leaves the registry (hence the
category count) unchanged. -/
theorem fallback_category_invariant :
    (∀ ops : List RegOp,
      "Other" ∈ ((initialManagerState.applyOps ops).categories.map Prod.fst)) ∧
    (∀ (st : ManagerState) (name : String), name ∈ defaultCategoryNames →
      st.remove_category name = (false, st)) := by
  constructor
  · intro ops
    exact other_mem_applyOps _ ops (by decide)
  · intro st name hdef
    unfold ManagerState.remove_category
    have hany : defaultCategoryNames.any (fun d => d == name) = true :=
      List.any_eq_true.mpr ⟨name, hdef, by simp⟩
    split
    · simp [hany]
    · rfl

/-- Witness for C8 at concrete inputs. -/
theorem fallback_category_invariant_witness :
    "Other" ∈ ((initialManagerState.applyOps
        [RegOp.add "Invoices" "" ["invoice"] "#6B7280" none,
         RegOp.remove "Invoices"]).categories.map Prod.fst) ∧
    initialManagerState.remove_category "Other" = (false, initialManagerState) :=
  ⟨fallback_category_invariant.1 _,
   fallback_category_invariant.2 initialManagerState "Other" (by decide)⟩

/-- C3 counterexample: with a non-empty prediction cache, an `add` that
fails its duplicate-name validation leaves the cache intact, and even a
**successful** `update` leaves it intact — the cache size immediately
after is 1, not 0, refuting the claim for failed adds and for updates. -/
theorem cache_not_cleared_counterexample :
    ((ClassifierState.add_category ⟨initialManagerState, [42]⟩
        "Other" "" [] "#6B7280" none).1 = false ∧
     (ClassifierState.add_category ⟨initialManagerState, [42]⟩
        "Other" "" [] "#6B7280" none).2.cache.length = 1) ∧
    ((ClassifierState.update_category ⟨initialManagerState, [42]⟩
        "Other" id).1 = true ∧
     (ClassifierState.update_category ⟨initialManagerState, [42]⟩
        "Other" id).2.cache.length = 1) := by
  constructor
  · constructor <;> rfl
  · constructor <;> rfl

/-- C3 (amended): `add`/`remove` clear the prediction cache exactly when
the underlying registry mutation succeeds and leave it untouched when it
fails; the service's `update` path never touches the cache; a scorer
reload clears it only when loading succeeds. -/
theorem cache_invalidation_on_success (st : ClassifierState)
    (n d : String) (kw : List String) (c : String) (s : Option Strategy)
    (f : CategoryData → CategoryData) :
    ((st.add_category n d kw c s).1 = true →
      (st.add_category n d kw c s).2.cache = []) ∧
    ((st.add_category n d kw c s).1 = false →
      (st.add_category n d kw c s).2.cache = st.cache) ∧
    ((st.remove_category n).1 = true → (st.remove_category n).2.cache = []) ∧
    ((st.remove_category n).1 = false →
      (st.remove_category n).2.cache = st.cache) ∧
    ((st.update_category n f).2.cache = st.cache) ∧
    ((st.load_model_from_path true).2.cache = []) ∧
    ((st.load_model_from_path false).2 = st) := by
  refine ⟨?_, ?_, ?_, ?_, rfl, rfl, rfl⟩
  · intro hok
    by_cases hc : (st.mgr.add_category n d kw c s).1 = true <;>
      simp [ClassifierState.add_category, hc] at hok ⊢
  · intro hok
    by_cases hc : (st.mgr.add_category n d kw c s).1 = true <;>
      simp [ClassifierState.add_category, hc] at hok ⊢
  · intro hok
    by_cases hc : (st.mgr.remove_category n).1 = true <;>
      simp [ClassifierState.remove_category, hc] at hok ⊢
  · intro hok
    by_cases hc : (st.mgr.remove_category n).1 = true <;>
      simp [ClassifierState.remove_category, hc] at hok ⊢

/-- Witness for C3's amended theorem at concrete inputs. -/
theorem cache_invalidation_on_success_witness :
    (ClassifierState.add_category ⟨initialManagerState, [42]⟩
        "Invoices" "" [] "#6B7280" none).2.cache = [] ∧
    (ClassifierState.add_category ⟨initialManagerState, [42]⟩
        "Other" "" [] "#6B7280" none).2.cache = [42] ∧
    (ClassifierState.update_category ⟨initialManagerState, [42]⟩
        "Other" id).2.cache = [42] :=
  ⟨(cache_invalidation_on_success ⟨initialManagerState, [42]⟩
      "Invoices" "" [] "#6B7280" none id).1 (by rfl),
   (cache_invalidation_on_success ⟨initialManagerState, [42]⟩
      "Other" "" [] "#6B7280" none id).2.1 (by rfl),
   (cache_invalidation_on_success ⟨initialManagerState, [42]⟩
      "Other" "" [] "#6B7280" none id).2.2.2.2.1⟩

lemma countMatch_cast_le (p : String → Bool) (l : List String) :
    (countMatch p l : ℚ) ≤ (l.length : ℚ) := by
  exact_mod_cast List.length_filter_le _ _

lemma countMatch_mul_le (p : String → Bool) (l : List String) {w : ℚ} (hw : 0 ≤ w) :
    (countMatch p l : ℚ) * w ≤ (l.length : ℚ) * w :=
  mul_le_mul_of_nonneg_right (countMatch_cast_le p l) hw

lemma except_bind_ok {ε α β : Type} (x : Except ε α) (f : α → Except ε β) (b : β) :
    (x >>= f) = .ok b ↔ ∃ a, x = .ok a ∧ f a = .ok b := by
  cases x <;> simp [Bind.bind, Except.bind]

lemma getD_ok {α : Type} {f : PyField α} {dflt a : α}
    (h : f.getD dflt = .ok a) : f = .absent ∧ a = dflt ∨ f = .ok a := by
  cases f with
  | absent => exact Or.inl ⟨rfl, by cases h; rfl⟩
  | ok v => exact Or.inr (by cases h; rfl)
  | bad => cases h

lemma scorePiece_bounds (p : String → Bool) (l : List String) {w : ℚ} (hw : 0 ≤ w) :
    0 ≤ (scorePiece p l w).1 ∧ (scorePiece p l w).1 ≤ (scorePiece p l w).2 ∧
      0 ≤ (scorePiece p l w).2 := by
  unfold scorePiece
  split_ifs
  · norm_num
  · exact ⟨by positivity, countMatch_mul_le p l hw, by positivity⟩

lemma triple_bounds {x y z : ℚ × ℚ}
    (hx : 0 ≤ x.1 ∧ x.1 ≤ x.2 ∧ 0 ≤ x.2)
    (hy : 0 ≤ y.1 ∧ y.1 ≤ y.2 ∧ 0 ≤ y.2)
    (hz : 0 ≤ z.1 ∧ z.1 ≤ z.2 ∧ 0 ≤ z.2) :
    0 ≤ x.1 + y.1 + z.1 ∧ x.1 + y.1 + z.1 ≤ x.2 + y.2 + z.2 ∧
      0 ≤ x.2 + y.2 + z.2 := by
  obtain ⟨a1, a2, a3⟩ := hx
  obtain ⟨b1, b2, b3⟩ := hy
  obtain ⟨c1, c2, c3⟩ := hz
  exact ⟨by linarith, by linarith, by linarith⟩

lemma tfidfPiece_bounds (tf : List (String × ℚ)) (c : ℚ) :
    0 ≤ (if tf.isEmpty then ((0 : ℚ), (0 : ℚ))
          else ((if c > 0 then min c 1 else 0), 1)).1 ∧
      (if tf.isEmpty then ((0 : ℚ), (0 : ℚ))
          else ((if c > 0 then min c 1 else 0), 1)).1 ≤
        (if tf.isEmpty then ((0 : ℚ), (0 : ℚ))
          else ((if c > 0 then min c 1 else 0), 1)).2 ∧
      0 ≤ (if tf.isEmpty then ((0 : ℚ), (0 : ℚ))
          else ((if c > 0 then min c 1 else 0), 1)).2 := by
  split_ifs with h1 h2
  · norm_num
  · exact ⟨le_min h2.le zero_le_one, min_le_right c 1, zero_le_one⟩
  · norm_num

lemma analyzeBody_bounds (s b : String) (bo : BodyAnalysis) :
    0 ≤ (analyzeBody s b bo).1 ∧
      (analyzeBody s b bo).1 ≤ (analyzeBody s b bo).2 ∧
      0 ≤ (analyzeBody s b bo).2 := by
  unfold analyzeBody
  rcases hcore : analyzeBodyCore s b bo with e | r
  · norm_num
  · unfold analyzeBodyCore at hcore
    rw [except_bind_ok] at hcore
    obtain ⟨kw, hkw, hcore⟩ := hcore
    rw [except_bind_ok] at hcore
    obtain ⟨ph, hph, hcore⟩ := hcore
    rw [except_bind_ok] at hcore
    obtain ⟨tf, htf, hcore⟩ := hcore
    simp only [Pure.pure, Except.pure, Except.ok.injEq] at hcore
    subst hcore
    exact triple_bounds (scorePiece_bounds _ _ (by norm_num))
      (scorePiece_bounds _ _ (by norm_num)) (tfidfPiece_bounds _ _)

lemma lengthPiece_ok {n : ℕ} {lpf : PyField LengthPatterns} {v : ℚ}
    (h : lengthPiece n lpf = .ok v) : 0 ≤ v := by
  cases lpf with
  | absent => cases h; norm_num
  | bad => cases h
  | ok lp =>
      unfold lengthPiece at h
      rw [except_bind_ok] at h
      obtain ⟨m, hm, h⟩ := h
      split_ifs at h
      · cases h; norm_num
      · rcases hmx : lp.maxLength with _ | mx | _
        all_goals rw [hmx] at h
        · cases h; norm_num
        · simp only [Pure.pure, Except.pure, Except.ok.injEq] at h
          subst h
          split_ifs <;> norm_num
        · cases h

lemma timePiece_ok {s : String} {tpf : PyField TimePatterns} {v : ℚ}
    (h : timePiece s tpf = .ok v) : 0 ≤ v := by
  cases tpf with
  | absent => cases h; norm_num
  | bad => cases h
  | ok tp =>
      unfold timePiece at h
      rw [except_bind_ok] at h
      obtain ⟨kws, hk, h⟩ := h
      simp only [Pure.pure, Except.pure, Except.ok.injEq] at h
      subst h
      positivity

lemma attachPiece_ok {s : String} {apf : PyField AttachmentPatterns} {v : ℚ}
    (h : attachPiece s apf = .ok v) : 0 ≤ v := by
  cases apf with
  | absent => cases h; norm_num
  | bad => cases h
  | ok ap =>
      unfold attachPiece at h
      rw [except_bind_ok] at h
      obtain ⟨kws, hk, h⟩ := h
      simp only [Pure.pure, Except.pure, Except.ok.injEq] at h
      subst h
      positivity

lemma analyzeMetadata_shape (s b : String) (m : MetadataAnalysis) :
    0 ≤ (analyzeMetadata s b m).1 ∧ (analyzeMetadata s b m).2 = 1 := by
  unfold analyzeMetadata
  rcases hcore : analyzeMetadataCore s b m with e | r
  · norm_num
  · unfold analyzeMetadataCore at hcore
    rw [except_bind_ok] at hcore
    obtain ⟨s1, h1, hcore⟩ := hcore
    rw [except_bind_ok] at hcore
    obtain ⟨s2, h2, hcore⟩ := hcore
    rw [except_bind_ok] at hcore
    obtain ⟨s3, h3, hcore⟩ := hcore
    simp only [Pure.pure, Except.pure, Except.ok.injEq] at hcore
    subst hcore
    have b1 := lengthPiece_ok h1
    have b2 := timePiece_ok h2
    have b3 := attachPiece_ok h3
    exact ⟨by simp only []; linarith, rfl⟩

lemma entityPiece_ok {s : String} {epf : PyField EntityPatterns} {v : ℚ × ℚ}
    (h : entityPiece s epf = .ok v) : 0 ≤ v.1 ∧ v.1 ≤ v.2 ∧ 0 ≤ v.2 := by
  cases epf with
  | absent => cases h; norm_num
  | bad => cases h
  | ok ep =>
      unfold entityPiece at h
      rw [except_bind_ok] at h
      obtain ⟨ems, he, h⟩ := h
      rw [except_bind_ok] at h
      obtain ⟨urls, hu, h⟩ := h
      rw [except_bind_ok] at h
      obtain ⟨kws, hk, h⟩ := h
      simp only [Pure.pure, Except.pure, Except.ok.injEq] at h
      subst h
      refine ⟨by positivity, ?_, by positivity⟩
      have c1 := countMatch_mul_le (fun k => pyIn (lowerStr k) s) ems
        (w := (2 : ℚ)/10) (by norm_num)
      have c2 := countMatch_mul_le (fun k => pyIn (lowerStr k) s) urls
        (w := (15 : ℚ)/100) (by norm_num)
      have c3 := countMatch_mul_le (fun k => pyIn (lowerStr k) s) kws
        (w := (1 : ℚ)/10) (by norm_num)
      simp only []
      linarith

lemma tagsBoost_ok {cff : PyField ConfidenceThresholds} {score maxScore v : ℚ}
    (h : tagsBoost cff score maxScore = .ok v)
    (h0 : 0 ≤ score) (h1 : score ≤ maxScore) : 0 ≤ v ∧ v ≤ maxScore := by
  cases cff with
  | absent => cases h; exact ⟨h0, h1⟩
  | bad =>
      unfold tagsBoost at h
      split_ifs at h
      cases h
      exact ⟨h0, h1⟩
  | ok c =>
      unfold tagsBoost at h
      split_ifs at h with hpos
      · rw [except_bind_ok] at h
        obtain ⟨th, hth, h⟩ := h
        simp only [Pure.pure, Except.pure, Except.ok.injEq] at h
        subst h
        split_ifs
        · exact ⟨le_min (h0.trans h1) (by positivity), min_le_left _ _⟩
        · exact ⟨h0, h1⟩
      · cases h
        exact ⟨h0, h1⟩

lemma analyzeTags_bounds (s b : String) (t : TagsAnalysis) :
    0 ≤ (analyzeTags s b t).1 ∧
      (analyzeTags s b t).1 ≤ (analyzeTags s b t).2 ∧
      0 ≤ (analyzeTags s b t).2 := by
  unfold analyzeTags
  rcases hcore : analyzeTagsCore s b t with e | r
  · norm_num
  · unfold analyzeTagsCore at hcore
    rw [except_bind_ok] at hcore
    obtain ⟨ct, hct, hcore⟩ := hcore
    rw [except_bind_ok] at hcore
    obtain ⟨lp, hlp, hcore⟩ := hcore
    rw [except_bind_ok] at hcore
    obtain ⟨p3, hp3, hcore⟩ := hcore
    rw [except_bind_ok] at hcore
    obtain ⟨fs, hfs, hcore⟩ := hcore
    simp only [Pure.pure, Except.pure, Except.ok.injEq] at hcore
    subst hcore
    obtain ⟨a1, a2, a3⟩ := scorePiece_bounds
      (fun k => pyIn (lowerStr k) (lowerStr (s ++ " " ++ b))) ct
      (w := (1 : ℚ)/10) (by norm_num)
    obtain ⟨b1, b2, b3⟩ := scorePiece_bounds
      (fun k => pyIn (lowerStr k) (lowerStr (s ++ " " ++ b))) lp
      (w := (15 : ℚ)/100) (by norm_num)
    obtain ⟨c1, c2, c3⟩ := entityPiece_ok hp3
    obtain ⟨f1, f2⟩ := tagsBoost_ok hfs (by linarith) (by linarith)
    exact ⟨f1, f2, by simp only []; linarith⟩

lemma analyzeHeader_bounds (re : String → String → Bool) (s b : String)
    (h : HeaderAnalysis) :
    0 ≤ (analyzeHeader re s b h).1 ∧
      (analyzeHeader re s b h).1 ≤ (analyzeHeader re s b h).2 ∧
      0 ≤ (analyzeHeader re s b h).2 := by
  unfold analyzeHeader
  rcases hcore : analyzeHeaderCore re s b h with e | r
  · norm_num
  · unfold analyzeHeaderCore at hcore
    rw [except_bind_ok] at hcore
    obtain ⟨sd, hsd, hcore⟩ := hcore
    rw [except_bind_ok] at hcore
    obtain ⟨sp, hsp, hcore⟩ := hcore
    rw [except_bind_ok] at hcore
    obtain ⟨up, hup, hcore⟩ := hcore
    simp only [Pure.pure, Except.pure, Except.ok.injEq] at hcore
    subst hcore
    exact triple_bounds (scorePiece_bounds _ _ (by norm_num))
      (scorePiece_bounds _ _ (by norm_num)) (scorePiece_bounds _ _ (by norm_num))

lemma groupResult_LE {α : Type} (analyze : α → ℚ × ℚ) (f : PyField α)
    (h : ∀ g, 0 ≤ (analyze g).1 ∧ (analyze g).1 ≤ (analyze g).2 ∧
      0 ≤ (analyze g).2) :
    0 ≤ (groupResult analyze f).1 ∧
      (groupResult analyze f).1 ≤ (groupResult analyze f).2 ∧
      0 ≤ (groupResult analyze f).2 := by
  cases f with
  | absent => norm_num [groupResult]
  | bad => norm_num [groupResult]
  | ok g => exact h g

lemma groupResult_nonneg {α : Type} (analyze : α → ℚ × ℚ) (f : PyField α)
    (h : ∀ g, 0 ≤ (analyze g).1 ∧ 0 ≤ (analyze g).2) :
    0 ≤ (groupResult analyze f).1 ∧ 0 ≤ (groupResult analyze f).2 := by
  cases f with
  | absent => norm_num [groupResult]
  | bad => norm_num [groupResult]
  | ok g => exact h g

/-- C7 (amended): the summed group score and `max_score` are always
nonnegative, so `strategy_confidence ≥ 0`; when `metadataAnalysis` is
absent, the summed score never exceeds the summed `max_score`, so
`strategy_confidence = score / max_score ≤ 1`; but the metadata group's
score can exceed its fixed `max_score` of 1.0, so the bound fails in
general (see the counterexample). -/
theorem strategyConfidence_bounds (re : String → String → Bool)
    (subject body : String) (st : Strategy) :
    0 ≤ (strategyGroupScores re subject body st).1 ∧
    0 ≤ (strategyGroupScores re subject body st).2 ∧
    (0 < (strategyGroupScores re subject body st).2 →
      0 ≤ (strategyGroupScores re subject body st).1 /
        (strategyGroupScores re subject body st).2) ∧
    (st.metadataAnalysis = PyField.absent →
      (strategyGroupScores re subject body st).1 ≤
        (strategyGroupScores re subject body st).2) ∧
    (st.metadataAnalysis = PyField.absent →
      0 < (strategyGroupScores re subject body st).2 →
      (strategyGroupScores re subject body st).1 /
        (strategyGroupScores re subject body st).2 ≤ 1) := by
  obtain ⟨hh1, hh2, hh3⟩ := groupResult_LE (analyzeHeader re subject body)
    st.headerAnalysis (analyzeHeader_bounds re subject body)
  obtain ⟨hb1, hb2, hb3⟩ := groupResult_LE (analyzeBody subject body)
    st.bodyAnalysis (analyzeBody_bounds subject body)
  obtain ⟨hm1, hm2⟩ := groupResult_nonneg (analyzeMetadata subject body)
    st.metadataAnalysis (fun g => by
      obtain ⟨x1, x2⟩ := analyzeMetadata_shape subject body g
      exact ⟨x1, by rw [x2]; norm_num⟩)
  obtain ⟨ht1, ht2, ht3⟩ := groupResult_LE (analyzeTags subject body)
    st.tagsAnalysis (analyzeTags_bounds subject body)
  have hs1 : 0 ≤ (strategyGroupScores re subject body st).1 := by
    unfold strategyGroupScores
    simp only []
    linarith
  have hs2 : 0 ≤ (strategyGroupScores re subject body st).2 := by
    unfold strategyGroupScores
    simp only []
    linarith
  have hle : st.metadataAnalysis = PyField.absent →
      (strategyGroupScores re subject body st).1 ≤
        (strategyGroupScores re subject body st).2 := by
    intro habs
    unfold strategyGroupScores
    rw [habs]
    simp only []
    have hz1 : (groupResult (analyzeMetadata subject body) PyField.absent).1 = 0 := rfl
    have hz2 : (groupResult (analyzeMetadata subject body) PyField.absent).2 = 0 := rfl
    rw [hz1, hz2]
    linarith
  refine ⟨hs1, hs2, fun hpos => div_nonneg hs1 hs2, hle, fun habs hpos => ?_⟩
  rw [div_le_one hpos]
  exact hle habs

/-- C7 counterexample: a strategy whose metadata group has eleven
matching time-pattern keywords scores 1.1 against the fixed max of 1.0,
so `strategy_confidence = 1.1 > 1` — the claimed `[0,1]` bound and the
claimed `score ≤ max_score` both fail. -/
theorem strategyConfidence_exceeds_one :
    strategyGroupScores noRegex "" "a" metadataHeavyStrategy = (11/10, 1) ∧
    ¬((11 : ℚ)/10 / 1 ≤ 1) := by
  constructor
  · have hc : countMatch (fun k => pyIn (lowerStr k) (lowerStr ("" ++ " " ++ "a")))
        (List.replicate 11 "a") = 11 := by decide
    simp only [strategyGroupScores, metadataHeavyStrategy, groupResult,
      analyzeMetadata, analyzeMetadataCore, lengthPiece, timePiece, attachPiece,
      PyField.getD, Bind.bind, Except.bind, Pure.pure, Except.pure, hc]
    norm_num
  · norm_num

/-- Witness for C7's amended theorem at the scenario inputs. -/
theorem strategyConfidence_bounds_witness :
    (strategyGroupScores noRegex "" "invoice payment" invoicesStrategy).1 /
      (strategyGroupScores noRegex "" "invoice payment" invoicesStrategy).2 ≤ 1 ∧
    0 ≤ (strategyGroupScores noRegex "" "invoice payment" invoicesStrategy).1 :=
  ⟨(strategyConfidence_bounds noRegex "" "invoice payment" invoicesStrategy).2.2.2.2
      rfl (by
        have hstr : ("" ++ " " ++ "invoice payment") = " invoice payment" := rfl
        have hcnt : countMatch
            (fun k => pyIn (lowerStr k) (lowerStr " invoice payment"))
            ["invoice", "payment"] = 2 := by decide
        have hc : scorePiece
            (fun k => pyIn (lowerStr k) (lowerStr " invoice payment"))
            ["invoice", "payment"] (1/10) = (1/5, 1/5) := by
          simp only [scorePiece, hcnt, List.isEmpty, List.length_cons,
            List.length_nil]
          norm_num
        have h0 : ∀ (p : String → Bool) (w : ℚ), scorePiece p [] w = (0, 0) :=
          fun p w => rfl
        simp only [strategyGroupScores, invoicesStrategy, groupResult,
          analyzeBody, analyzeBodyCore, PyField.getD, Bind.bind, Except.bind,
          Pure.pure, Except.pure, hstr, hc, h0]
        norm_num),
   (strategyConfidence_bounds noRegex "" "invoice payment" invoicesStrategy).1⟩

/-- C4 counterexample: a `headerAnalysis` group whose `senderDomains`
value is truthy but ill-typed raises inside `_analyze_header`, whose
handler returns `(0.0, 1.0)` — not the claimed `(0, 0)` — so the
malformed group adds 1.0 to the normalization denominator. -/
theorem malformed_group_counterexample :
    analyzeHeader noRegex "invoice" "payment due"
      ⟨PyField.bad, PyField.absent, PyField.absent⟩ = (0, 1) ∧
    ((0 : ℚ), (1 : ℚ)).2 ≠ 0 := by
  constructor
  · rfl
  · norm_num

/-- C4 (amended): a rule group whose fields are all missing contributes
`(0, 0)` and is effectively skipped; but a rule group containing a
truthy ill-typed field raises `TypeError` inside its analyzer, whose
`except` handler contributes `(0.0, 1.0)` — no error reaches the
caller, yet the group adds 1.0 to the normalization denominator of the
other groups. -/
theorem malformed_group_behavior (re : String → String → Bool)
    (subject body : String) :
    (analyzeHeader re subject body
      ⟨PyField.absent, PyField.absent, PyField.absent⟩ = (0, 0)) ∧
    (∀ h : HeaderAnalysis, h.senderDomains = PyField.bad →
      analyzeHeader re subject body h = (0, 1)) ∧
    (∀ b : BodyAnalysis, b.keywords = PyField.bad →
      analyzeBody subject body b = (0, 1)) ∧
    (∀ m : MetadataAnalysis, m.lengthPatterns = PyField.bad →
      analyzeMetadata subject body m = (0, 1)) ∧
    (∀ t : TagsAnalysis, t.commonTags = PyField.bad →
      analyzeTags subject body t = (0, 1)) := by
  refine ⟨?_, ?_, ?_, ?_, ?_⟩
  · simp [analyzeHeader, analyzeHeaderCore, PyField.getD, Bind.bind,
      Except.bind, Pure.pure, Except.pure, scorePiece]
  · intro h heq
    have hc : analyzeHeaderCore re subject body h = .error () := by
      unfold analyzeHeaderCore
      rw [heq]
      rfl
    simp [analyzeHeader, hc]
  · intro b heq
    have hc : analyzeBodyCore subject body b = .error () := by
      unfold analyzeBodyCore
      rw [heq]
      rfl
    simp [analyzeBody, hc]
  · intro m heq
    have hc : analyzeMetadataCore subject body m = .error () := by
      unfold analyzeMetadataCore
      rw [heq]
      rfl
    simp [analyzeMetadata, hc]
  · intro t heq
    have hc : analyzeTagsCore subject body t = .error () := by
      unfold analyzeTagsCore
      rw [heq]
      rfl
    simp [analyzeTags, hc]

/-- Witness for C4's amended theorem at concrete inputs. -/
theorem malformed_group_behavior_witness :
    analyzeHeader noRegex "a" "b"
      ⟨PyField.absent, PyField.absent, PyField.absent⟩ = (0, 0) ∧
    analyzeBody "a" "b" ⟨PyField.bad, PyField.absent, PyField.absent⟩ = (0, 1) :=
  ⟨(malformed_group_behavior noRegex "a" "b").1,
   (malformed_group_behavior noRegex "a" "b").2.2.1
     ⟨PyField.bad, PyField.absent, PyField.absent⟩ rfl⟩

lemma comprehensiveStep_eq (re : String → String → Bool) (s b : String)
    (scores : List (String × ℚ)) (best : Decision) (cat : String × CategoryData) :
    comprehensiveStep re s b scores best cat =
      if stepThrows re s b cat then Except.error ()
      else Except.ok (comprehensiveStepPure re s b scores best cat) := by
  obtain ⟨name, d⟩ := cat
  unfold comprehensiveStep stepThrows comprehensiveStepPure
  by_cases hname : name = "Other"
  · simp [hname, Pure.pure, Except.pure]
  · simp only [hname, if_false, ite_false]
    cases hstrat : d.classification_strategy with
    | absent => rfl
    | bad => rfl
    | ok st =>
        simp only []
        rcases hgs : strategyGroupScores re s b st with ⟨sc, mx⟩
        simp only [hgs, decide_eq_true_eq]
        cases hth : st.confidenceThreshold with
        | absent =>
            simp only [PyField.getD, Bind.bind, Except.bind, Pure.pure,
              Except.pure, decide_eq_true_eq]
            split_ifs <;> first | rfl | assumption
        | bad =>
            simp only [PyField.getD, Bind.bind, Except.bind, Pure.pure,
              Except.pure, decide_eq_true_eq]
            split_ifs <;> first | rfl | assumption
        | ok v =>
            simp only [PyField.getD, Bind.bind, Except.bind, Pure.pure,
              Except.pure, decide_eq_true_eq]
            split_ifs <;> first | rfl | assumption

lemma perm_any_eq {α : Type} {l1 l2 : List α} (p : l1.Perm l2) (f : α → Bool) :
    l1.any f = l2.any f := by
  have h : l1.any f = true ↔ l2.any f = true := by
    simp only [List.any_eq_true]
    constructor
    · rintro ⟨x, hx, hfx⟩
      exact ⟨x, p.mem_iff.mp hx, hfx⟩
    · rintro ⟨x, hx, hfx⟩
      exact ⟨x, p.mem_iff.mpr hx, hfx⟩
  cases ha : l1.any f <;> cases hb : l2.any f <;> simp_all

lemma confStep_right_comm (c v w : ℚ) :
    confStep (confStep c v) w = confStep (confStep c w) v := by
  unfold confStep
  simp only [min_def]
  split_ifs <;> linarith

lemma stepPure_confidence (re : String → String → Bool) (s b : String)
    (scores : List (String × ℚ)) (best : Decision) (cat : String × CategoryData) :
    (comprehensiveStepPure re s b scores best cat).confidence =
      match candidateValue re s b scores cat with
      | none => best.confidence
      | some v => confStep best.confidence v := by
  obtain ⟨name, d⟩ := cat
  unfold comprehensiveStepPure candidateValue confStep
  by_cases hname : name = "Other"
  · simp [hname]
  · simp only [hname, if_false, ite_false]
    cases hstrat : d.classification_strategy with
    | absent => rfl
    | bad => rfl
    | ok st =>
        simp only []
        rcases hgs : strategyGroupScores re s b st with ⟨sc, mx⟩
        simp only [hgs]
        by_cases hmx : mx > 0 <;>
          by_cases hge : sc / mx ≥
            (match st.confidenceThreshold with
              | PyField.ok v => v
              | _ => (7 : ℚ)/10) * (8/10) <;>
          by_cases hgt : lookupD scores name 0 * (3/10) + sc / mx * (7/10) >
            best.confidence <;>
          simp only [hmx, hge, hgt, if_true, if_false, ite_true, ite_false] <;>
          rfl

lemma foldl_stepPure_confidence (re : String → String → Bool) (s b : String)
    (scores : List (String × ℚ)) (cats : List (String × CategoryData))
    (best : Decision) :
    (cats.foldl (comprehensiveStepPure re s b scores) best).confidence =
      (candidateValues re s b scores cats).foldl confStep best.confidence := by
  induction cats generalizing best with
  | nil => rfl
  | cons c rest ih =>
      simp only [List.foldl_cons, candidateValues, List.filterMap_cons]
      rcases hc : candidateValue re s b scores c with _ | v
      · have hstep : (comprehensiveStepPure re s b scores best c).confidence =
            best.confidence := by
          rw [stepPure_confidence, hc]
        rw [show (comprehensiveStepPure re s b scores best c) =
            { comprehensiveStepPure re s b scores best c with
              confidence := (comprehensiveStepPure re s b scores best c).confidence }
          from rfl]
        rw [ih]
        simp [candidateValues, hstep]
      · rw [ih]
        simp only [List.foldl_cons]
        congr 1
        rw [stepPure_confidence, hc]

lemma comprehensiveCore_eq (re : String → String → Bool) (s b : String)
    (scores : List (String × ℚ)) (cats : List (String × CategoryData))
    (baseline : Decision) :
    comprehensiveCore re s b scores cats baseline =
      if cats.any (stepThrows re s b) then Except.error ()
      else Except.ok (cats.foldl (comprehensiveStepPure re s b scores) baseline) := by
  induction cats generalizing baseline with
  | nil => rfl
  | cons c rest ih =>
      simp only [comprehensiveCore, List.foldlM_cons, List.any_cons]
      rw [comprehensiveStep_eq]
      by_cases hthrow : stepThrows re s b c
      · simp [hthrow, Bind.bind, Except.bind]
      · have ih2 := ih (comprehensiveStepPure re s b scores baseline c)
        simp only [comprehensiveCore] at ih2
        rw [Bool.not_eq_true] at hthrow
        simp [Bind.bind, Except.bind, List.foldl_cons]
        rw [hthrow, Bool.false_or]
        simp [ih2]

/-- C9 (amended): permuting the iteration order of the strategy-override
loop never changes the final **confidence** (the loop keeps the
single best override value, capped at 0.95, and whether any category
throws is order-independent); the final **label** is not
order-independent — see the counterexample. -/
theorem override_confidence_order_invariant (re : String → String → Bool)
    (s b : String) (scores : List (String × ℚ))
    (cats₁ cats₂ : List (String × CategoryData)) (baseline : Decision)
    (hperm : cats₁.Perm cats₂) :
    (applyComprehensiveAnalysis re s b scores cats₁ baseline).confidence =
      (applyComprehensiveAnalysis re s b scores cats₂ baseline).confidence := by
  unfold applyComprehensiveAnalysis
  rw [comprehensiveCore_eq, comprehensiveCore_eq,
    perm_any_eq hperm (stepThrows re s b)]
  by_cases hthrow : cats₂.any (stepThrows re s b) = true
  · simp [hthrow]
  · rw [Bool.not_eq_true] at hthrow
    simp only [hthrow, Bool.false_eq_true, if_false, ite_false]
    rw [foldl_stepPure_confidence, foldl_stepPure_confidence]
    exact (hperm.filterMap (candidateValue re s b scores)).foldl_eq'
      (fun x _ y _ z => confStep_right_comm z x y) baseline.confidence

/-- C9 counterexample: two categories "X" and "Y" with identical
strategies attain the same maximal combined value; iterating `[X, Y]`
decides "X" while iterating the permuted `[Y, X]` decides "Y" — the
final decision is **not** independent of iteration order. -/
theorem override_label_depends_on_order :
    ([catX, catY].Perm [catY, catX]) ∧
    (applyComprehensiveAnalysis noRegex "" "a" [] [catX, catY]
      ⟨"Other", 0, 0⟩).category = "X" ∧
    (applyComprehensiveAnalysis noRegex "" "a" [] [catY, catX]
      ⟨"Other", 0, 0⟩).category = "Y" := by
  have hgs : strategyGroupScores noRegex "" "a" tieStrategy = (1/10, 1/10) := by
    have hcnt : countMatch (fun k => pyIn (lowerStr k) (lowerStr ("" ++ " " ++ "a")))
        ["a"] = 1 := by decide
    have hc : scorePiece (fun k => pyIn (lowerStr k) (lowerStr ("" ++ " " ++ "a")))
        ["a"] (1/10) = (1/10, 1/10) := by
      simp only [scorePiece, hcnt, List.isEmpty, List.length_cons, List.length_nil]
      norm_num
    have h0 : ∀ (p : String → Bool) (w : ℚ), scorePiece p [] w = (0, 0) :=
      fun p w => rfl
    simp only [strategyGroupScores, tieStrategy, groupResult, analyzeBody,
      analyzeBodyCore, PyField.getD, Bind.bind, Except.bind, Pure.pure,
      Except.pure, hc, h0]
    norm_num
  have hstepX : ∀ best : Decision, best.confidence < 7/10 →
      comprehensiveStepPure noRegex "" "a" [] best catX =
        ⟨"X", 7/10, 1⟩ := by
    intro best hlt
    simp only [comprehensiveStepPure, catX, hgs]
    rw [if_neg (show ¬("X" = "Other") by decide)]
    simp only [show tieStrategy.confidenceThreshold = PyField.ok 0 from rfl]
    norm_num [hlt, lookupD, List.find?]
  have hstepY : ∀ best : Decision, best.confidence < 7/10 →
      comprehensiveStepPure noRegex "" "a" [] best catY =
        ⟨"Y", 7/10, 2⟩ := by
    intro best hlt
    simp only [comprehensiveStepPure, catY, hgs]
    rw [if_neg (show ¬("Y" = "Other") by decide)]
    simp only [show tieStrategy.confidenceThreshold = PyField.ok 0 from rfl]
    norm_num [hlt, lookupD, List.find?]
  have hkeepY : comprehensiveStepPure noRegex "" "a" [] ⟨"X", 7/10, 1⟩ catY =
      ⟨"X", 7/10, 1⟩ := by
    simp only [comprehensiveStepPure, catY, hgs]
    rw [if_neg (show ¬("Y" = "Other") by decide)]
    simp only [show tieStrategy.confidenceThreshold = PyField.ok 0 from rfl]
    norm_num [lookupD, List.find?]
  have hkeepX : comprehensiveStepPure noRegex "" "a" [] ⟨"Y", 7/10, 2⟩ catX =
      ⟨"Y", 7/10, 2⟩ := by
    simp only [comprehensiveStepPure, catX, hgs]
    rw [if_neg (show ¬("X" = "Other") by decide)]
    simp only [show tieStrategy.confidenceThreshold = PyField.ok 0 from rfl]
    norm_num [lookupD, List.find?]
  refine ⟨List.Perm.swap catY catX [], ?_, ?_⟩
  · unfold applyComprehensiveAnalysis
    rw [comprehensiveCore_eq,
      show ([catX, catY].any (stepThrows noRegex "" "a")) = false from rfl]
    simp only [Bool.false_eq_true, if_false, ite_false, List.foldl_cons,
      List.foldl_nil]
    rw [hstepX ⟨"Other", 0, 0⟩ (by norm_num), hkeepY]
  · unfold applyComprehensiveAnalysis
    rw [comprehensiveCore_eq,
      show ([catY, catX].any (stepThrows noRegex "" "a")) = false from rfl]
    simp only [Bool.false_eq_true, if_false, ite_false, List.foldl_cons,
      List.foldl_nil]
    rw [hstepY ⟨"Other", 0, 0⟩ (by norm_num), hkeepX]

lemma threshold_match_of_getD {st : Strategy} {t : ℚ}
    (ht : st.confidenceThreshold.getD (7/10) = Except.ok t) :
    (match st.confidenceThreshold with
      | PyField.ok v => v
      | _ => (7 : ℚ)/10) = t := by
  cases hc : st.confidenceThreshold <;> rw [hc] at ht <;>
    simp [PyField.getD] at ht <;> simp [ht]

lemma threshold_not_bad_of_getD {st : Strategy} {t : ℚ}
    (ht : st.confidenceThreshold.getD (7/10) = Except.ok t) :
    st.confidenceThreshold ≠ PyField.bad := by
  intro hc
  rw [hc] at ht
  cases ht

/-- C1: for every strategy-bearing category other than "Other" whose
groups score `(sc, mx)` with `mx > 0`, readable threshold `t` (default
0.7) and `sc/mx ≥ 0.8 × t`, the loop computes
`combined = 0.3 × P_ml + 0.7 × (sc/mx)` and, when it beats the running
best, makes that category the decision with
`confidence = min(0.95, combined)`; on the spec's scenario (keywords
"invoice"/"payment" both present, threshold 0.7, `P_ml = 0.2`) the
result is `Invoices` with confidence 0.76. -/
theorem strategyOverride_rule_and_scenario (re : String → String → Bool)
    (subject body : String) (scores : List (String × ℚ)) (best : Decision)
    (name : String) (d : CategoryData) (st : Strategy) (sc mx t : ℚ)
    (hname : name ≠ "Other")
    (hstrat : d.classification_strategy = PyField.ok st)
    (hgs : strategyGroupScores re subject body st = (sc, mx))
    (hmx : 0 < mx)
    (ht : st.confidenceThreshold.getD (7/10) = Except.ok t)
    (hge : sc / mx ≥ t * (8/10))
    (hgt : lookupD scores name 0 * (3/10) + sc / mx * (7/10) > best.confidence) :
    comprehensiveStep re subject body scores best (name, d) =
      Except.ok ⟨name, min (95/100)
        (lookupD scores name 0 * (3/10) + sc / mx * (7/10)), d.id⟩ ∧
    applyComprehensiveAnalysis noRegex "" "invoice payment"
      [("Other", 1/2), ("Invoices", 1/5)] scenarioCats ⟨"Other", 1/2, 0⟩ =
      ⟨"Invoices", 76/100, 1⟩ := by
  constructor
  · rw [comprehensiveStep_eq]
    have hthr : stepThrows re subject body (name, d) = false := by
      simp only [stepThrows, hname, if_false, ite_false, hstrat]
      cases hc : st.confidenceThreshold with
      | bad => exact absurd hc (threshold_not_bad_of_getD ht)
      | absent => rfl
      | ok v => rfl
    rw [hthr]
    simp only [Bool.false_eq_true, if_false, ite_false]
    congr 1
    simp only [comprehensiveStepPure, hname, if_false, ite_false, hstrat, hgs]
    rw [threshold_match_of_getD ht]
    rw [if_pos hmx, if_pos hge, if_pos hgt]
  · have hgs2 : strategyGroupScores noRegex "" "invoice payment"
        invoicesStrategy = (1/5, 1/5) := by
      have hcnt : countMatch
          (fun k => pyIn (lowerStr k) (lowerStr ("" ++ " " ++ "invoice payment")))
          ["invoice", "payment"] = 2 := by decide
      have hc : scorePiece
          (fun k => pyIn (lowerStr k) (lowerStr ("" ++ " " ++ "invoice payment")))
          ["invoice", "payment"] (1/10) = (1/5, 1/5) := by
        simp only [scorePiece, hcnt, List.isEmpty, List.length_cons,
          List.length_nil]
        norm_num
      have h0 : ∀ (p : String → Bool) (w : ℚ), scorePiece p [] w = (0, 0) :=
        fun p w => rfl
      simp only [strategyGroupScores, invoicesStrategy, groupResult,
        analyzeBody, analyzeBodyCore, PyField.getD, Bind.bind, Except.bind,
        Pure.pure, Except.pure, hc, h0]
      norm_num
    have hstepInv : comprehensiveStepPure noRegex "" "invoice payment"
        [("Other", 1/2), ("Invoices", 1/5)] ⟨"Other", 1/2, 0⟩
        ("Invoices", ⟨1, "Invoices", ["invoice", "payment"], "#6B7280",
          PyField.ok invoicesStrategy⟩) = ⟨"Invoices", 76/100, 1⟩ := by
      simp only [comprehensiveStepPure, hgs2]
      rw [if_neg (show ¬("Invoices" = "Other") by decide)]
      simp only [show invoicesStrategy.confidenceThreshold =
        PyField.ok (7/10) from rfl]
      have hlk : lookupD [("Other", (1 : ℚ)/2), ("Invoices", 1/5)] "Invoices" 0 =
          1/5 := rfl
      rw [hlk]
      norm_num
    unfold applyComprehensiveAnalysis
    rw [comprehensiveCore_eq,
      show (scenarioCats.any (stepThrows noRegex "" "invoice payment")) = false
        from rfl]
    simp only [Bool.false_eq_true, if_false, ite_false, scenarioCats,
      List.foldl_cons, List.foldl_nil]
    rw [show comprehensiveStepPure noRegex "" "invoice payment"
        [("Other", 1/2), ("Invoices", 1/5)] ⟨"Other", 1/2, 0⟩
        ("Other", ⟨0, "Miscellaneous content", [], "#6B7280", PyField.absent⟩) =
        ⟨"Other", 1/2, 0⟩ from rfl]
    exact hstepInv

theorem strategyOverride_witness :
    comprehensiveStep noRegex "" "invoice payment"
      [("Other", 1/2), ("Invoices", 1/5)] ⟨"Other", 1/2, 0⟩
      ("Invoices", ⟨1, "Invoices", ["invoice", "payment"], "#6B7280",
        PyField.ok invoicesStrategy⟩) =
      Except.ok ⟨"Invoices", min (95/100)
        (lookupD [("Other", 1/2), ("Invoices", 1/5)] "Invoices" 0 * (3/10) +
          (1/5) / (1/5) * (7/10)), 1⟩ ∧
    applyComprehensiveAnalysis noRegex "" "invoice payment"
      [("Other", 1/2), ("Invoices", 1/5)] scenarioCats ⟨"Other", 1/2, 0⟩ =
      ⟨"Invoices", 76/100, 1⟩ :=
  strategyOverride_rule_and_scenario noRegex "" "invoice payment"
    [("Other", 1/2), ("Invoices", 1/5)] ⟨"Other", 1/2, 0⟩ "Invoices"
    ⟨1, "Invoices", ["invoice", "payment"], "#6B7280", PyField.ok invoicesStrategy⟩
    invoicesStrategy (1/5) (1/5) (7/10)
    (by decide)
    rfl
    (by
      have hcnt : countMatch
          (fun k => pyIn (lowerStr k) (lowerStr ("" ++ " " ++ "invoice payment")))
          ["invoice", "payment"] = 2 := by decide
      have hc : scorePiece
          (fun k => pyIn (lowerStr k) (lowerStr ("" ++ " " ++ "invoice payment")))
          ["invoice", "payment"] (1/10) = (1/5, 1/5) := by
        simp only [scorePiece, hcnt, List.isEmpty, List.length_cons,
          List.length_nil]
        norm_num
      have h0 : ∀ (p : String → Bool) (w : ℚ), scorePiece p [] w = (0, 0) :=
        fun p w => rfl
      simp only [strategyGroupScores, invoicesStrategy, groupResult,
        analyzeBody, analyzeBodyCore, PyField.getD, Bind.bind, Except.bind,
        Pure.pure, Except.pure, hc, h0]
      norm_num)
    (by norm_num)
    rfl
    (by norm_num)
    (by
      have hlk : lookupD [("Other", (1 : ℚ)/2), ("Invoices", 1/5)] "Invoices" 0 =
          1/5 := rfl
      rw [hlk]
      norm_num)

lemma stepPure_category_other (re : String → String → Bool) (s b : String)
    (scores : List (String × ℚ)) (best : Decision) (cat : String × CategoryData)
    (h : (comprehensiveStepPure re s b scores best cat).category = "Other") :
    best.category = "Other" := by
  unfold comprehensiveStepPure at h
  by_cases hname : cat.1 = "Other"
  · simpa [hname] using h
  · simp only [hname, if_false, ite_false] at h
    rcases hc : cat.2.classification_strategy with _ | st | _ <;>
      simp only [hc] at h
    · exact h
    · rcases hgs : strategyGroupScores re s b st with ⟨sc, mx⟩
      rw [hgs] at h
      simp only [] at h
      split_ifs at h
      · exact absurd h hname
      · exact h
      · exact h
      · exact h
    · exact h

lemma foldl_stepPure_category_other (re : String → String → Bool) (s b : String)
    (scores : List (String × ℚ)) (cats : List (String × CategoryData))
    (best : Decision)
    (h : (cats.foldl (comprehensiveStepPure re s b scores) best).category =
      "Other") : best.category = "Other" := by
  induction cats generalizing best with
  | nil => exact h
  | cons c rest ih =>
      simp only [List.foldl_cons] at h
      exact stepPure_category_other re s b scores best c (ih _ h)

lemma step_other_entry (re : String → String → Bool) (s b : String)
    (scores : List (String × ℚ)) (best : Decision) (d : CategoryData) :
    comprehensiveStep re s b scores best ("Other", d) = Except.ok best := rfl

lemma core_other_strategy_irrelevant (re : String → String → Bool) (s b : String)
    (scores : List (String × ℚ)) (cats : List (String × CategoryData))
    (baseline : Decision) (sub : PyField Strategy) :
    comprehensiveCore re s b scores
      (cats.map (fun p => if p.1 = "Other"
        then (p.1, { p.2 with classification_strategy := sub }) else p))
      baseline = comprehensiveCore re s b scores cats baseline := by
  induction cats generalizing baseline with
  | nil => rfl
  | cons c rest ih =>
      obtain ⟨cname, cdata⟩ := c
      simp only [List.map_cons, comprehensiveCore, List.foldlM_cons]
      by_cases hname : cname = "Other"
      · subst hname
        simp only [if_pos rfl]
        exact ih baseline
      · simp only [if_neg hname]
        rcases hstep : comprehensiveStep re s b scores baseline (cname, cdata) with
          e | next
        · rfl
        · exact ih next

/-- C10: the override pass of `_apply_comprehensive_analysis` skips the
category named "Other" unconditionally: a classification strategy
attached to "Other" is never evaluated (replacing it changes nothing),
and the pass can never change the decision to "Other" — the result is
labelled "Other" only when the incoming ML baseline already was. -/
theorem other_category_never_overridden (re : String → String → Bool)
    (s b : String) (scores : List (String × ℚ))
    (cats : List (String × CategoryData)) (baseline : Decision)
    (sub : PyField Strategy) :
    ((applyComprehensiveAnalysis re s b scores cats baseline).category =
        "Other" → baseline.category = "Other") ∧
    applyComprehensiveAnalysis re s b scores
      (cats.map (fun p => if p.1 = "Other"
        then (p.1, { p.2 with classification_strategy := sub }) else p))
      baseline = applyComprehensiveAnalysis re s b scores cats baseline := by
  constructor
  · intro h
    unfold applyComprehensiveAnalysis at h
    rw [comprehensiveCore_eq] at h
    by_cases hthrow : cats.any (stepThrows re s b) = true
    · simpa [hthrow] using h
    · rw [Bool.not_eq_true] at hthrow
      simp only [hthrow, Bool.false_eq_true, if_false, ite_false] at h
      exact foldl_stepPure_category_other re s b scores cats baseline h
  · unfold applyComprehensiveAnalysis
    rw [core_other_strategy_irrelevant]

/-- Witness for C10 at concrete inputs. -/
theorem other_category_never_overridden_witness :
    (⟨"Other", (1 : ℚ)/2, 0⟩ : Decision).category = "Other" ∧
    applyComprehensiveAnalysis noRegex "" "invoice payment"
      [("Other", 1/2), ("Invoices", 1/5)]
      (scenarioCats.map (fun p => if p.1 = "Other"
        then (p.1, { p.2 with classification_strategy := PyField.bad }) else p))
      ⟨"Other", 1/2, 0⟩ =
      applyComprehensiveAnalysis noRegex "" "invoice payment"
        [("Other", 1/2), ("Invoices", 1/5)] scenarioCats ⟨"Other", 1/2, 0⟩ :=
  ⟨(other_category_never_overridden noRegex "" "" [] [] ⟨"Other", 1/2, 0⟩
      PyField.absent).1 rfl,
   (other_category_never_overridden noRegex "" "invoice payment"
      [("Other", 1/2), ("Invoices", 1/5)] scenarioCats ⟨"Other", 1/2, 0⟩
      PyField.bad).2⟩

/-- Witness for C9's amended theorem at concrete inputs. -/
theorem override_confidence_order_invariant_witness :
    (applyComprehensiveAnalysis noRegex "" "a" [] [catX, catY]
      ⟨"Other", 0, 0⟩).confidence =
    (applyComprehensiveAnalysis noRegex "" "a" [] [catY, catX]
      ⟨"Other", 0, 0⟩).confidence :=
  override_confidence_order_invariant noRegex "" "a" [] [catX, catY]
    [catY, catX] ⟨"Other", 0, 0⟩ (List.Perm.swap catY catX [])

/-- C5 (amended): whenever the reweighted fused confidence is below 0.3
the fused pick is discarded, the label becomes that of the single scorer
with the higher raw confidence (ties to the ML scorer), and the stored
confidence is `0.7 × that raw confidence`, rounded to 4 decimal places;
on the spec's scenario (`P_ml["A"]=0.25`, `P_feat["A"]=0.22`, weights
0.6/0.4) the result is label "A" with confidence exactly 0.175. -/
theorem lowConfidence_fallback_rule (dw fw : ℚ) (d : DistilResult)
    (f : FeatureResult) (c : String × ℚ) (rest : List (String × ℚ))
    (hc : combinedScores dw fw d.scores f.scores = c :: rest)
    (hlow : fuseAdjusted d.confidence f.confidence (maxEntry c rest).2 < 3/10) :
    ((fusePredictions dw fw d f).label =
      (if d.confidence ≥ f.confidence then d.label else f.label) ∧
     (fusePredictions dw fw d f).confidence =
      round4 (max d.confidence f.confidence * (7/10))) ∧
    ((fusePredictions (6/10) (4/10) ⟨"A", 1/4, [("A", 1/4)]⟩
        ⟨"A", 11/50, [("A", 11/50)]⟩).label = "A" ∧
     (fusePredictions (6/10) (4/10) ⟨"A", 1/4, [("A", 1/4)]⟩
        ⟨"A", 11/50, [("A", 11/50)]⟩).confidence = 175/1000) := by
  constructor
  · unfold fusePredictions
    rw [hc]
    simp only []
    rw [if_pos hlow]
    constructor
    · by_cases hcmp : d.confidence ≥ f.confidence <;> simp [hcmp]
    · by_cases hcmp : d.confidence ≥ f.confidence <;> simp [hcmp]
  · have hcomb : combinedScores (6/10) (4/10) [("A", (1 : ℚ)/4)]
        [("A", (11 : ℚ)/50)] = [("A", (1/4) * (6/10) + (11/50) * (4/10))] := rfl
    have hval : ((1 : ℚ)/4) * (6/10) + (11/50) * (4/10) = 119/500 := by norm_num
    unfold fusePredictions
    rw [hcomb]
    simp only [maxEntry, List.foldl_nil]
    have hadj : fuseAdjusted (1/4) (11/50)
        ((1 : ℚ)/4 * (6/10) + 11/50 * (4/10)) = 119/500 := by
      unfold fuseAdjusted
      rw [if_neg (by norm_num), if_neg (by norm_num)]
      exact hval
    rw [hadj]
    rw [if_pos (by norm_num : (119 : ℚ)/500 < 3/10)]
    rw [if_pos (by norm_num : (1 : ℚ)/4 ≥ 11/50)]
    refine ⟨rfl, ?_⟩
    have hmax : max ((1 : ℚ)/4) (11/50) = 1/4 := max_eq_left (by norm_num)
    simp only [hmax]
    unfold round4
    have hfl : ⌊(1 : ℚ)/4 * (7/10) * 10000 + 1/2⌋ = 1750 := by
      rw [show ((1 : ℚ)/4 * (7/10) * 10000 + 1/2) = 3501/2 by norm_num]
      rw [Int.floor_eq_iff] <;> norm_num
    rw [hfl]
    norm_num

/-- Witness for C5's amended theorem at the scenario inputs. -/
theorem lowConfidence_fallback_rule_witness :
    (fusePredictions (6/10) (4/10) ⟨"A", 1/4, [("A", 1/4)]⟩
        ⟨"A", 11/50, [("A", 11/50)]⟩).label = "A" ∧
    (fusePredictions (6/10) (4/10) ⟨"A", 1/4, [("A", 1/4)]⟩
        ⟨"A", 11/50, [("A", 11/50)]⟩).confidence = 175/1000 :=
  (lowConfidence_fallback_rule (6/10) (4/10) ⟨"A", 1/4, [("A", 1/4)]⟩
    ⟨"A", 11/50, [("A", 11/50)]⟩ ("A", (1/4) * (6/10) + (11/50) * (4/10)) []
    rfl
    (by
      unfold fuseAdjusted maxEntry
      rw [if_neg (by norm_num), if_neg (by norm_num)]
      simp only [List.foldl_nil]
      norm_num)).2

/-- C5 counterexample: the stored confidence is `round(0.7 × raw, 4)`,
not `0.7 × raw`: with the higher raw confidence 1/3 the fallback stores
0.2333, while `0.7 × 1/3 = 7/30 = 0.2333…` — the two differ. -/
theorem fallback_confidence_rounding_counterexample :
    (fusePredictions (6/10) (4/10) ⟨"A", 1/3, [("A", 1/3)]⟩
      ⟨"A", 0, [("A", 0)]⟩).confidence = 2333/10000 ∧
    ¬((2333 : ℚ)/10000 = (7/10) * max ((1 : ℚ)/3) 0) := by
  constructor
  · have hcomb : combinedScores (6/10) (4/10) [("A", (1 : ℚ)/3)]
        [("A", (0 : ℚ))] = [("A", (1/3) * (6/10) + 0 * (4/10))] := rfl
    unfold fusePredictions
    rw [hcomb]
    simp only [maxEntry, List.foldl_nil]
    have hadj : fuseAdjusted (1/3) 0 ((1 : ℚ)/3 * (6/10) + 0 * (4/10)) = 1/5 := by
      unfold fuseAdjusted
      rw [if_neg (by norm_num), if_neg (by norm_num)]
      norm_num
    rw [hadj]
    rw [if_pos (by norm_num : (1 : ℚ)/5 < 3/10)]
    rw [if_pos (by norm_num : (1 : ℚ)/3 ≥ 0)]
    simp only []
    have hmax : max ((1 : ℚ)/3) 0 = 1/3 := max_eq_left (by norm_num)
    rw [hmax]
    unfold round4
    have hfl : ⌊(1 : ℚ)/3 * (7/10) * 10000 + 1/2⌋ = 2333 := by
      rw [show ((1 : ℚ)/3 * (7/10) * 10000 + 1/2) = 14003/6 by norm_num]
      rw [Int.floor_eq_iff] <;> norm_num
    rw [hfl]
    norm_num
  · norm_num

lemma map_fst_zip_take {α β : Type} (l₁ : List α) (l₂ : List β) :
    (l₁.zip l₂).map Prod.fst = l₁.take (min l₁.length l₂.length) := by
  induction l₁ generalizing l₂ with
  | nil => simp
  | cons a t ih =>
      cases l₂ with
      | nil => simp
      | cons b t2 =>
          simp only [List.zip_cons_cons, List.map_cons, List.length_cons,
            ih t2]
          rw [Nat.succ_min_succ, List.take_succ_cons]

/-- C2 (amended): the fused scores map has exactly the union of the two
scorers' key sets (a registered category absent from both scorers is
omitted, not defaulted to 0.0), and the `predict_batch` scores map pairs
only the first `min(#categories, #model outputs)` category names with
probabilities — completeness over the registry holds for neither. -/
theorem scores_keys_shape :
    (∀ (dw fw : ℚ) (d : DistilResult) (f : FeatureResult),
      (fusePredictions dw fw d f).scores.map Prod.fst =
        allLabels d.scores f.scores) ∧
    (∀ (cats : List (String × CategoryData)) (row : List ℚ),
      (batchItemResult cats row).scores.map Prod.fst =
        (cats.map Prod.fst).take
          (min (cats.map Prod.fst).length row.length)) := by
  constructor
  · intro dw fw d f
    unfold fusePredictions
    rcases hc : combinedScores dw fw d.scores f.scores with _ | ⟨c, rest⟩
    · have hlab : allLabels d.scores f.scores = [] := by
        have := congrArg List.length hc
        simpa [combinedScores, List.length_map, List.length_eq_zero] using this
      have hd : d.scores.map Prod.fst = [] := by
        have h2 := congrArg (fun l => "x" ∈ l) hlab
        rcases hmap : d.scores.map Prod.fst with _ | ⟨k, ks⟩
        · rfl
        · exfalso
          have hk : k ∈ allLabels d.scores f.scores := by
            unfold allLabels
            rw [List.mem_dedup, List.mem_append]
            exact Or.inl (by rw [hmap]; exact List.mem_cons_self k ks)
          rw [hlab] at hk
          cases hk
      simp only [fuseFallbackResult, hd, hlab]
    · have heq : (c :: rest).map Prod.fst = allLabels d.scores f.scores := by
        rw [← hc]
        unfold combinedScores
        rw [List.map_map]
        exact List.map_congr_left (fun a _ => rfl) |>.trans (List.map_id _)
      simp only []
      exact heq
  · intro cats row
    unfold batchItemResult
    simp only []
    rw [map_fst_zip_take, List.length_map]

/-- C2 counterexample: with registry `{Other, A}`, a DistilBERT error
result (empty scores) fused with a feature result over `{A}` yields a
fused scores map whose only key is "A" — the registered category "Other"
has no entry at all, not a 0.0 entry. -/
theorem fusedScores_missing_category_counterexample :
    "Other" ∈ ([("Other", (⟨0, "Miscellaneous content", [], "#6B7280",
        PyField.absent⟩ : CategoryData)),
      ("A", ⟨1, "", [], "#6B7280", PyField.absent⟩)].map Prod.fst) ∧
    (fusePredictions (6/10) (4/10) ⟨"Other", 0, []⟩
      ⟨"A", 3/10, [("A", 3/10)]⟩).scores.map Prod.fst = ["A"] ∧
    "Other" ∉ ["A"] := by
  refine ⟨by decide, rfl, by decide⟩

lemma predictBatchCore_nil (model : List String → Except String (List (List ℚ)))
    (cats : List (String × CategoryData)) (bs : ℕ) :
    predictBatchCore model cats bs [] = .ok [] := by
  unfold predictBatchCore pyRange
  have h0 : (List.length ([] : List EmailInput) + bs - 1) / bs = 0 := by
    rcases Nat.eq_zero_or_pos bs with h | h
    · subst h; rfl
    · simp only [List.length_nil, Nat.zero_add]
      exact Nat.div_eq_of_lt (by omega)
  rw [h0]
  rfl

/-- C6 (amended): `predict_batch` wraps the whole chunk loop in one
`try`: if the scorer fails on **any** chunk, every email in the batch —
including those in chunks whose scorer call succeeded — receives the
failure result; only when every chunk succeeds do the items receive
their normal per-item predictions, in input order. -/
theorem batch_failure_granularity
    (model : List String → Except String (List (List ℚ)))
    (cats : List (String × CategoryData)) (bs : ℕ) (emails : List EmailInput) :
    (∀ msg, predictBatchCore model cats bs emails = .error msg →
      predictBatch model cats bs emails =
        emails.map (fun _ => batchFailureResult msg)) ∧
    (∀ rs, predictBatchCore model cats bs emails = .ok rs →
      predictBatch model cats bs emails = rs) := by
  constructor
  · intro msg hcore
    unfold predictBatch
    rcases hemp : emails with _ | ⟨e, tl⟩
    · rw [hemp] at hcore
      rw [predictBatchCore_nil] at hcore
      cases hcore
    · rw [← hemp]
      rw [show emails.isEmpty = false by rw [hemp]; rfl]
      simp only [Bool.false_eq_true, if_false, ite_false, hcore]
  · intro rs hcore
    unfold predictBatch
    rcases hemp : emails with _ | ⟨e, tl⟩
    · rw [hemp] at hcore
      rw [predictBatchCore_nil] at hcore
      cases hcore
      rfl
    · rw [← hemp]
      rw [show emails.isEmpty = false by rw [hemp]; rfl]
      simp only [Bool.false_eq_true, if_false, ite_false, hcore]

/-- C6 counterexample: a 33-email batch splits into chunks of 32 and 1;
the scorer succeeds on the first chunk and fails only on the second, yet
every item of the batch — the 32 items of the successful chunk included —
receives the failure result. -/
theorem batch_chunk_failure_counterexample :
    flakyModel (((List.replicate 33 (⟨"s", "b"⟩ : EmailInput)).take 32).map
      (fun e => preprocessText e.subject e.body)) =
      .ok (List.replicate 32 [1]) ∧
    predictBatch flakyModel
      [("Other", ⟨0, "Miscellaneous content", [], "#6B7280", PyField.absent⟩)]
      32 (List.replicate 33 ⟨"s", "b"⟩) =
      List.replicate 33 (batchFailureResult "boom") ∧
    (batchFailureResult "boom").error ≠ none := by
  refine ⟨by rfl, by rfl, by decide⟩

/-- Witness for C6's amended theorem at concrete inputs. -/
theorem batch_failure_granularity_witness :
    predictBatch flakyModel
      [("Other", ⟨0, "Miscellaneous content", [], "#6B7280", PyField.absent⟩)]
      32 (List.replicate 33 ⟨"s", "b"⟩) =
      (List.replicate 33 (⟨"s", "b"⟩ : EmailInput)).map
        (fun _ => batchFailureResult "boom") ∧
    predictBatch (fun _ => Except.ok [[(1 : ℚ)]])
      [("Other", ⟨0, "Miscellaneous content", [], "#6B7280", PyField.absent⟩)]
      1 [⟨"s", "b"⟩] =
      [batchItemResult
        [("Other", ⟨0, "Miscellaneous content", [], "#6B7280", PyField.absent⟩)]
        [1]] :=
  ⟨(batch_failure_granularity flakyModel
      [("Other", ⟨0, "Miscellaneous content", [], "#6B7280", PyField.absent⟩)]
      32 (List.replicate 33 ⟨"s", "b"⟩)).1 "boom" rfl,
   (batch_failure_granularity (fun _ => Except.ok [[(1 : ℚ)]])
      [("Other", ⟨0, "Miscellaneous content", [], "#6B7280", PyField.absent⟩)]
      1 [⟨"s", "b"⟩]).2
      [batchItemResult
        [("Other", ⟨0, "Miscellaneous content", [], "#6B7280", PyField.absent⟩)]
        [1]] rfl⟩
